import Mathlib

/-!
Verification of the `investplan` simulation engine against its natural-language
specification.  The Python sources under `engine/` and `models/` are shallowly
embedded below: mutable dataclasses become immutable structures with explicit
state passing, Python `float` arithmetic is modelled over a linear ordered
field (instantiated at `ℚ` for concrete evaluation and at `ℝ` where the code
uses transcendental functions), dictionaries become lookup functions, and the
seeded pseudo-random generator becomes an arbitrary stream of draw values
supplied as an argument, so every theorem quantifies over all seeds.
-/

namespace InvestPlan

variable {K : Type} [LinearOrderedField K]

/-- Embedding of `engine/rebalancer.py` dataclass `BucketState`: the mutable
per-bucket ledger state driven by the monthly rebalancer. -/
structure BucketState (K : Type) where
  name : String
  currency : String
  price : K
  amount : K
  initial_price : K
  target_growth_pct : K
  buy_sell_fee_pct : K
  sell_trigger : K
  standby_bucket : Option String
  buy_trigger : K
  buying_priority : Int
  required_runaway_months : K
  spending_priority : Int
  cash_floor_months : K
  frequency : String
  amount_sold : K
  amount_bought : K
  fees_paid : K
  tax_paid : K
  net_spent : K
  deriving DecidableEq

/-- Embedding of `get_fx_rate` in `engine/rebalancer.py`.  The Python
`dict[str, float]` of FX rates is modelled as a partial lookup function;
`fx_rates.get(c, 1.0)` becomes `(fx_rates c).getD 1`. -/
def get_fx_rate (bucket_currency expenses_currency : String)
    (fx_rates : String → Option K) : K :=
  if bucket_currency = expenses_currency then 1
  else (fx_rates bucket_currency).getD 1

/-- Embedding of `check_sell_trigger` in `engine/rebalancer.py`, including the
early `return False` for `target_growth_pct == 0` that makes the later
zero-target branch unreachable. -/
def check_sell_trigger (b : BucketState K) : Bool :=
  if b.target_growth_pct = 0 then false
  else if b.initial_price ≤ 0 then false
  else
    let actual_growth := (b.price - b.initial_price) / b.initial_price * 100
    let target_growth := b.target_growth_pct
    if target_growth = 0 then decide (actual_growth > 0)
    else decide (actual_growth / target_growth > b.sell_trigger)

/-- Embedding of `check_buy_trigger` in `engine/rebalancer.py`. -/
def check_buy_trigger (b : BucketState K) : Bool :=
  let target_price := b.initial_price * (1 + b.target_growth_pct / 100)
  if b.price ≤ 0 then false
  else decide (100 * target_price / b.price - 100 > b.buy_trigger)

/-- Embedding of `compute_sell` in `engine/bucket.py`; returns
`(net_proceeds, fee_paid)`. -/
def compute_sell (amount_currency fee_pct : K) : K × K :=
  let fee := amount_currency * fee_pct / 100
  (amount_currency - fee, fee)

/-- Embedding of `compute_buy` in `engine/bucket.py`; returns
`(amount_invested, fee_paid)`. -/
def compute_buy (spend_currency fee_pct : K) : K × K :=
  let fee := spend_currency * fee_pct / 100
  (spend_currency - fee, fee)

/-- Embedding of the helper `_bucket_value_in_expenses_currency` in
`engine/rebalancer.py`. -/
def bucket_value_in_expenses_currency (b : BucketState K) (fx_rate : K) : K :=
  b.amount * fx_rate

/-- Embedding of `_cash_runway_months` in `engine/rebalancer.py`.  The Python
function returns `float("inf")` when the monthly expense is non-positive; the
codomain is therefore `WithTop K`, with `⊤` playing the role of `inf` (in
particular `⊤ < x` is false for every `x`, matching IEEE `inf < x`). -/
def cash_runway_months (bucket_states : List (BucketState K))
    (monthly_expense : K) (fx_rates : String → Option K)
    (expenses_currency : String) : WithTop K :=
  if monthly_expense ≤ 0 then ⊤
  else
    ((bucket_states.map fun b =>
      bucket_value_in_expenses_currency b
        (get_fx_rate b.currency expenses_currency fx_rates)).sum
      / monthly_expense : K)

/-- Embedding of `DistributionType` in `utils/volatility.py`. -/
inductive DistributionType where
  | constant | lognormal | normal
  deriving DecidableEq

/-- Embedding of `VolatilitySpec` in `utils/volatility.py`. -/
structure VolatilitySpec (K : Type) where
  monthly_sigma : K
  distribution : DistributionType
  deriving DecidableEq

/-- Embedding of `VolatilityProfile` in `utils/volatility.py`. -/
inductive VolatilityProfile where
  | constant | gov_bonds | sp500 | gold | bitcoin
  deriving DecidableEq

/-- Embedding of `VOLATILITY_PROFILE_MAP` / `get_volatility_spec`. -/
def get_volatility_spec : VolatilityProfile → VolatilitySpec K
  | .constant => ⟨0, .constant⟩
  | .gov_bonds => ⟨5 / 1000, .lognormal⟩
  | .sp500 => ⟨4 / 100, .lognormal⟩
  | .gold => ⟨25 / 1000, .lognormal⟩
  | .bitcoin => ⟨15 / 100, .lognormal⟩

/-- Embedding of `ExpenseVolatility` in `utils/volatility.py`. -/
inductive ExpenseVolatility where
  | constant | moderate | crazy
  deriving DecidableEq

/-- Embedding of `EXPENSE_VOLATILITY_MAP` / `get_expense_volatility_spec`. -/
def get_expense_volatility_spec : ExpenseVolatility → VolatilitySpec K
  | .constant => ⟨0, .constant⟩
  | .moderate => ⟨3 / 100, .normal⟩
  | .crazy => ⟨8 / 100, .normal⟩

/-- Embedding of `InflationVolatility` in `utils/volatility.py`. -/
inductive InflationVolatility where
  | constant | mild | crazy
  deriving DecidableEq

/-- Embedding of `INFLATION_VOLATILITY_MAP` / `get_inflation_volatility_spec`. -/
def get_inflation_volatility_spec : InflationVolatility → VolatilitySpec K
  | .constant => ⟨0, .constant⟩
  | .mild => ⟨2 / 1000, .normal⟩
  | .crazy => ⟨1 / 100, .normal⟩

/-- Embedding of `RebalancingParams` in `models/bucket.py`. -/
structure RebalancingParams (K : Type) where
  frequency : String
  sell_trigger : K
  standby_bucket : Option String
  buy_trigger : K
  buying_priority : Int
  required_runaway_months : K
  spending_priority : Int
  cash_floor_months : K
  deriving DecidableEq

/-- Embedding of `InvestmentBucket` in `models/bucket.py`. -/
structure InvestmentBucket (K : Type) where
  name : String
  currency : String
  initial_price : K
  initial_amount : K
  growth_min_pct : K
  growth_max_pct : K
  growth_avg_pct : K
  volatility : VolatilityProfile
  buy_sell_fee_pct : K
  target_growth_pct : K
  rebalancing : RebalancingParams K
  deriving DecidableEq

/-- Embedding of `CurrencySettings` in `models/currency.py`. -/
structure CurrencySettings (K : Type) where
  code : String
  initial_price : K
  min_price : K
  max_price : K
  avg_price : K
  volatility : VolatilityProfile
  conversion_fee_pct : K
  deriving DecidableEq

/-- Embedding of `ExpensePeriod` in `models/expense.py`. -/
structure ExpensePeriod (K : Type) where
  start_month : Int
  start_year : Int
  amount_min : K
  amount_max : K
  amount_avg : K
  volatility : ExpenseVolatility
  deriving DecidableEq

/-- Embedding of `OneTimeExpense` in `models/expense.py`. -/
structure OneTimeExpense (K : Type) where
  month : Int
  year : Int
  amount : K
  deriving DecidableEq

/-- Embedding of `InflationSettings` in `models/inflation.py`. -/
structure InflationSettings (K : Type) where
  min_pct : K
  max_pct : K
  avg_pct : K
  volatility : InflationVolatility
  deriving DecidableEq

/-- Embedding of `SimConfig` in `models/config.py`. -/
structure SimConfig (K : Type) where
  period_years : Nat
  expenses_currency : String
  hedge_amount : K
  capital_gain_tax_pct : K
  inflation : InflationSettings K
  expense_periods : List (ExpensePeriod K)
  one_time_expenses : List (OneTimeExpense K)
  buckets : List (InvestmentBucket K)
  currencies : List (CurrencySettings K)

/-- Step 0 of `execute_rebalance`: reset the monthly tracking counters of one
bucket (`b.amount_sold = 0.0` and so on in `engine/rebalancer.py`). -/
def resetMonth (b : BucketState K) : BucketState K :=
  { b with amount_sold := 0, amount_bought := 0, fees_paid := 0,
           tax_paid := 0, net_spent := 0 }

/-- Index view of the Python dict comprehension
`name_to_state = {b.name: b for b in bucket_states}`: buckets stay at their
list positions, so the dict maps a name to the index of its last occurrence
(later comprehension entries overwrite earlier ones). -/
def nameToIndex (states : List (BucketState K)) (nm : String) : Option Nat :=
  (List.range states.length).foldl
    (fun acc i =>
      if (states[i]?).map BucketState.name = some nm then some i else acc)
    none

/-- The Python guard `if b.standby_bucket and b.standby_bucket in name_to_state`
resolved to a list index: `None` and the falsy empty string both fail the
first conjunct. -/
def standbyIndex (nameIdx : String → Option Nat) :
    Option String → Option Nat
  | none => none
  | some nm => if nm = "" then none else nameIdx nm

/-- Phase-1 body of `execute_rebalance` for a single bucket (one iteration of
the `for b in bucket_states` loop): frequency check, sell trigger, runaway
guard, target-trajectory skim with fee and capital-gains tax, and the
optional standby buy.  The Python code mutates aliased objects; here the
whole bucket list is the state and the visited bucket is addressed by its
index `i`. -/
def phase1Step (month_expense : K) (fx_rates : String → Option K)
    (expenses_currency : String) (capital_gain_tax_pct : K) (month_idx : Nat)
    (nameIdx : String → Option Nat)
    (s : List (BucketState K)) (i : Nat) : List (BucketState K) :=
  match s[i]? with
  | none => s
  | some b =>
    if b.frequency = "yearly" ∧ month_idx % 12 ≠ 0 then s
    else if check_sell_trigger b = false then s
    else if cash_runway_months s month_expense fx_rates expenses_currency
        < (b.required_runaway_months : WithTop K) then s
    else
      let target_price := b.initial_price * (1 + b.target_growth_pct / 100)
      let excess_per_unit := b.price - target_price
      if excess_per_unit ≤ 0 then s
      else
        let fraction_excess := excess_per_unit / b.price
        let sell_amount := b.amount * fraction_excess
        if sell_amount ≤ 0 then s
        else
          let sold := compute_sell sell_amount b.buy_sell_fee_pct
          let net_proceeds := sold.1
          let fee := sold.2
          let fx := get_fx_rate b.currency expenses_currency fx_rates
          let cost_basis := sell_amount * (b.initial_price / b.price)
          let gain := net_proceeds - cost_basis
          let tax := max 0 (gain * capital_gain_tax_pct / 100)
          let after_tax := net_proceeds - tax
          let s1 := s.set i { b with
            amount := b.amount - sell_amount,
            amount_sold := b.amount_sold + sell_amount,
            fees_paid := b.fees_paid + fee * fx,
            tax_paid := b.tax_paid + tax * fx }
          match standbyIndex nameIdx b.standby_bucket with
          | none => s1
          | some j =>
            match s1[j]? with
            | none => s1
            | some standby =>
              if check_buy_trigger standby then
                let standby_fx :=
                  get_fx_rate standby.currency expenses_currency fx_rates
                let buy_amount_standby :=
                  if 0 < standby_fx then after_tax * fx / standby_fx else 0
                let bought := compute_buy buy_amount_standby standby.buy_sell_fee_pct
                s1.set j { standby with
                  amount := standby.amount + bought.1,
                  amount_bought := standby.amount_bought + bought.1,
                  fees_paid := standby.fees_paid + bought.2 * standby_fx }
              else s1

/-- Phase 1 of `execute_rebalance`: visit the buckets in configuration-list
order. -/
def phase1 (month_expense : K) (fx_rates : String → Option K)
    (expenses_currency : String) (capital_gain_tax_pct : K) (month_idx : Nat)
    (nameIdx : String → Option Nat)
    (s : List (BucketState K)) : List (BucketState K) :=
  (List.range s.length).foldl
    (phase1Step month_expense fx_rates expenses_currency capital_gain_tax_pct
      month_idx nameIdx) s

/-- Insert an element into a list sorted ascending by `key`, after all
elements with a strictly smaller key and before all elements with a greater
or equal key. -/
def stableInsertBy {A : Type} (key : A → Int) (x : A) : List A → List A
  | [] => [x]
  | y :: ys =>
    if key y < key x then y :: stableInsertBy key x ys else x :: y :: ys

/-- Stable ascending sort by an integer key: the meaning of Python
`sorted(xs, key=...)` (any two stable sorts agree, so insertion sort placing
earlier elements before later equal-key elements is exactly it). -/
def stableSortBy {A : Type} (key : A → Int) : List A → List A
  | [] => []
  | x :: xs => stableInsertBy key x (stableSortBy key xs)

/-- Index view of `spending_order = sorted(bucket_states, key=spending
priority)`: the Python sort reorders object references while the underlying
objects keep their positions in `bucket_states`, so it is the stable sort of
the positions by the spending priority at each position. -/
def spendingOrder (s : List (BucketState K)) : List Nat :=
  stableSortBy
    (fun i => ((s[i]?).map BucketState.spending_priority).getD 0)
    (List.range s.length)

/-- Phase-2 available amount of a bucket in expenses currency:
`max(0, holding · FX − cash_floor_months · month_expense)` inline in
`execute_rebalance`. -/
def availableExpenses (b : BucketState K) (fx month_expense : K) : K :=
  max 0 (b.amount * fx - b.cash_floor_months * month_expense)

/-- Phase-2 body of `execute_rebalance` for one bucket of the spending
cascade; the accumulator carries the bucket list and `remaining_expense`.
The Python `break` once the remaining expense is non-positive is modelled by
the leading skip: the remaining expense is only ever updated downward from a
positive value inside a step, so after it first becomes non-positive every
later step is a no-op. -/
def phase2Step (month_expense : K) (fx_rates : String → Option K)
    (expenses_currency : String) (capital_gain_tax_pct : K)
    (acc : List (BucketState K) × K) (j : Nat) : List (BucketState K) × K :=
  let s := acc.1
  let remaining := acc.2
  if remaining ≤ 0 then acc
  else match s[j]? with
  | none => acc
  | some b =>
    let fx := get_fx_rate b.currency expenses_currency fx_rates
    if fx ≤ 0 then acc
    else
      let available_expenses := availableExpenses b fx month_expense
      if available_expenses ≤ 0 then acc
      else
        let sell_expenses := min remaining available_expenses
        let sell_bucket_currency := sell_expenses / fx
        let sold := compute_sell sell_bucket_currency b.buy_sell_fee_pct
        let cost_basis :=
          if 0 < b.price then sell_bucket_currency * (b.initial_price / b.price)
          else 0
        let gain := sold.1 - cost_basis
        let tax := max 0 (gain * capital_gain_tax_pct / 100)
        let after_tax := sold.1 - tax
        let net_in_expenses := after_tax * fx
        (s.set j { b with
            amount := b.amount - sell_bucket_currency,
            amount_sold := b.amount_sold + sell_bucket_currency,
            fees_paid := b.fees_paid + sold.2 * fx,
            tax_paid := b.tax_paid + tax * fx,
            net_spent := b.net_spent + net_in_expenses },
          remaining - net_in_expenses)

/-- Phase 2 of `execute_rebalance`: the expense cascade over the buckets in
ascending spending priority, returning the final bucket list and the
remaining uncovered expense. -/
def phase2 (month_expense : K) (fx_rates : String → Option K)
    (expenses_currency : String) (capital_gain_tax_pct : K)
    (s : List (BucketState K)) : List (BucketState K) × K :=
  (spendingOrder s).foldl
    (phase2Step month_expense fx_rates expenses_currency capital_gain_tax_pct)
    (s, month_expense)

/-- Embedding of `execute_rebalance` in `engine/rebalancer.py`: counter reset,
Phase-1 target-trajectory skim, Phase-2 expense cascade; returns the final
bucket states and `total_covered = month_expense − max(0, remaining)`. -/
def execute_rebalance (bucket_states : List (BucketState K))
    (month_expense : K) (fx_rates : String → Option K) (config : SimConfig K)
    (month_idx : Nat) : List (BucketState K) × K :=
  let reset := bucket_states.map resetMonth
  let afterP1 := phase1 month_expense fx_rates config.expenses_currency
    config.capital_gain_tax_pct month_idx (nameToIndex reset) reset
  let p2 := phase2 month_expense fx_rates config.expenses_currency
    config.capital_gain_tax_pct afterP1
  (p2.1, month_expense - max 0 p2.2)

/-! Concrete sample data used by counterexamples and witnesses. -/

/-- A default-shaped bucket state over `ℚ` (defaults as in the Python
dataclass), with the fields relevant to each scenario overridden at use
sites. -/
def sampleBucket : BucketState ℚ :=
  { name := "A", currency := "USD", price := 1, amount := 0,
    initial_price := 1, target_growth_pct := 7, buy_sell_fee_pct := 0,
    sell_trigger := 3/2, standby_bucket := none, buy_trigger := 5,
    buying_priority := 0, required_runaway_months := 6, spending_priority := 0,
    cash_floor_months := 0, frequency := "monthly", amount_sold := 0,
    amount_bought := 0, fees_paid := 0, tax_paid := 0, net_spent := 0 }

/-- A minimal `SimConfig` over `ℚ` (expenses currency USD, no tax). -/
def sampleConfig : SimConfig ℚ :=
  { period_years := 1, expenses_currency := "USD", hedge_amount := 0,
    capital_gain_tax_pct := 0,
    inflation := ⟨0, 0, 0, InflationVolatility.constant⟩,
    expense_periods := [], one_time_expenses := [], buckets := [],
    currencies := [] }

/-- A bucket that has doubled since inception but has a zero growth target. -/
def zeroTargetGrownBucket : BucketState ℚ :=
  { sampleBucket with price := 2, initial_price := 1, target_growth_pct := 0 }

/-- Claim C1, counterexample.  A bucket with `target_growth_pct = 0` whose
price has doubled (`price = 2 > initial_price = 1 > 0`, so growth since
inception is strictly positive) does not fire the sell trigger, contradicting
the claim that in the zero-target case the trigger fires exactly when growth
is positive: the early `return False` in `check_sell_trigger` makes its
zero-target `actual_growth > 0` branch unreachable. -/
theorem check_sell_trigger_zero_target_claim_false :
    zeroTargetGrownBucket.target_growth_pct = 0 ∧
    zeroTargetGrownBucket.initial_price > 0 ∧
    zeroTargetGrownBucket.price > zeroTargetGrownBucket.initial_price ∧
    check_sell_trigger zeroTargetGrownBucket = false := by
  refine ⟨rfl, by norm_num [zeroTargetGrownBucket, sampleBucket], ?_, rfl⟩
  norm_num [zeroTargetGrownBucket, sampleBucket]

/-- Claim C1, amended.  For every bucket state with a zero growth target,
`check_sell_trigger` returns `false`, whatever the price and hence whatever
the actual growth since inception: the zero-target case never fires. -/
theorem check_sell_trigger_zero_target_never_fires (b : BucketState K)
    (h : b.target_growth_pct = 0) : check_sell_trigger b = false := by
  simp [check_sell_trigger, h]

/-- Witness for `check_sell_trigger_zero_target_never_fires` at the concrete
grown zero-target bucket. -/
theorem check_sell_trigger_zero_target_never_fires_witness :
    zeroTargetGrownBucket.target_growth_pct = 0 ∧
    check_sell_trigger zeroTargetGrownBucket = false :=
  ⟨rfl, check_sell_trigger_zero_target_never_fires zeroTargetGrownBucket rfl⟩

/-! Phase-2 cash-floor invariant (claim C3). -/

/-- Arithmetic core of the cash floor: selling the whole available amount
leaves exactly the minimum of the current value and the floor. -/
theorem sub_max_zero_sub_eq_min (v f : K) : v - max 0 (v - f) = min v f := by
  rcases le_total v f with h | h
  · rw [max_eq_left (by linarith), min_eq_left h]; ring
  · rw [max_eq_right (by linarith), min_eq_right h]; ring

/-- Relation maintained by the Phase-2 cascade between a bucket's entry state
`b0` and its current state `b`: the static fields feeding the floor
computation are untouched, selling moves holdings to `amount_sold`
one-for-one, and the expenses-currency value stays at or above the minimum of
its entry value and the cash floor. -/
def cascadeFloorInv (e : K) (fxr : String → Option K) (ccy : String)
    (b0 b : BucketState K) : Prop :=
  b.currency = b0.currency ∧
  b.cash_floor_months = b0.cash_floor_months ∧
  b.amount + b.amount_sold = b0.amount + b0.amount_sold ∧
  min (b0.amount * get_fx_rate b0.currency ccy fxr) (b0.cash_floor_months * e)
    ≤ b.amount * get_fx_rate b.currency ccy fxr

theorem cascadeFloorInv_refl (e : K) (fxr : String → Option K) (ccy : String)
    (b : BucketState K) : cascadeFloorInv e fxr ccy b b :=
  ⟨rfl, rfl, rfl, min_le_left _ _⟩

/-- One step of the Phase-2 cascade preserves the floor relation at every
index. -/
theorem phase2Step_cascadeFloorInv (e : K) (fxr : String → Option K)
    (ccy : String) (tax : K) (s : List (BucketState K)) (r : K) (j : Nat)
    (s0 : List (BucketState K))
    (h : ∀ (i : Nat) (b0 b : BucketState K), s0[i]? = some b0 →
      s[i]? = some b → cascadeFloorInv e fxr ccy b0 b) :
    ∀ (i : Nat) (b0 b : BucketState K), s0[i]? = some b0 →
      (phase2Step e fxr ccy tax (s, r) j).1[i]? = some b →
      cascadeFloorInv e fxr ccy b0 b := by
  intro i b0 b h0 hb
  unfold phase2Step at hb
  dsimp only at hb
  by_cases hr : r ≤ 0
  · exact h i b0 b h0 (by simpa [hr] using hb)
  rw [if_neg hr] at hb
  rcases hj : s[j]? with _ | bj
  · rw [hj] at hb; exact h i b0 b h0 hb
  rw [hj] at hb
  dsimp only at hb
  by_cases hfx : get_fx_rate bj.currency ccy fxr ≤ 0
  · rw [if_pos hfx] at hb; exact h i b0 b h0 hb
  rw [if_neg hfx] at hb
  by_cases hav : availableExpenses bj (get_fx_rate bj.currency ccy fxr) e ≤ 0
  · rw [if_pos hav] at hb; exact h i b0 b h0 hb
  rw [if_neg hav] at hb
  dsimp only at hb
  by_cases hij : j = i
  · subst hij
    rw [List.getElem?_set_self', hj] at hb
    obtain ⟨hcur, hfloor, hsum, hval⟩ := h j b0 bj h0 hj
    have hbval := (Option.some_injective _ hb).symm
    subst hbval
    have hfxpos : (0 : K) < get_fx_rate bj.currency ccy fxr :=
      lt_of_not_le hfx
    have hfxne : get_fx_rate bj.currency ccy fxr ≠ 0 := ne_of_gt hfxpos
    have hsell : min r (availableExpenses bj (get_fx_rate bj.currency ccy fxr) e)
        ≤ max 0 (bj.amount * get_fx_rate bj.currency ccy fxr
            - bj.cash_floor_months * e) := by
      have hmr := min_le_right r
        (availableExpenses bj (get_fx_rate bj.currency ccy fxr) e)
      simpa [availableExpenses] using hmr
    refine ⟨hcur, hfloor, ?_, ?_⟩
    · simp only [Function.const_apply]
      linarith [hsum]
    · simp only [Function.const_apply]
      rw [sub_mul, div_mul_cancel₀ _ hfxne]
      have hminmax : min (bj.amount * get_fx_rate bj.currency ccy fxr)
          (bj.cash_floor_months * e)
          ≤ bj.amount * get_fx_rate bj.currency ccy fxr
            - min r (availableExpenses bj (get_fx_rate bj.currency ccy fxr) e) := by
        have hid := sub_max_zero_sub_eq_min
          (bj.amount * get_fx_rate bj.currency ccy fxr)
          (bj.cash_floor_months * e)
        linarith [hsell]
      have hlow : min (b0.amount * get_fx_rate b0.currency ccy fxr)
          (b0.cash_floor_months * e)
          ≤ min (bj.amount * get_fx_rate bj.currency ccy fxr)
              (bj.cash_floor_months * e) := by
        rw [hcur] at hval
        rw [hcur, hfloor]
        exact le_min hval (min_le_right _ _)
      linarith [hminmax, hlow]
  · rw [List.getElem?_set_ne hij] at hb
    exact h i b0 b h0 hb

/-- Folding Phase-2 steps over any visit order preserves the floor relation. -/
theorem foldl_phase2Step_cascadeFloorInv (e : K) (fxr : String → Option K)
    (ccy : String) (tax : K) (s0 : List (BucketState K)) (order : List Nat) :
    ∀ acc : List (BucketState K) × K,
      (∀ (i : Nat) (b0 b : BucketState K), s0[i]? = some b0 →
        acc.1[i]? = some b → cascadeFloorInv e fxr ccy b0 b) →
      ∀ (i : Nat) (b0 b : BucketState K), s0[i]? = some b0 →
        (order.foldl (phase2Step e fxr ccy tax) acc).1[i]? = some b →
        cascadeFloorInv e fxr ccy b0 b := by
  induction order with
  | nil => intro acc hacc i b0 b h0 hb; exact hacc i b0 b h0 (by simpa using hb)
  | cons j rest ih =>
    intro acc hacc i b0 b h0 hb
    rw [List.foldl_cons] at hb
    refine ih (phase2Step e fxr ccy tax acc j) ?_ i b0 b h0 hb
    intro i2 b02 b2 h02 hb2
    obtain ⟨s2, r2⟩ := acc
    exact phase2Step_cascadeFloorInv e fxr ccy tax s2 r2 j s0 hacc i2 b02 b2
      h02 hb2

/-- Claim C3.  Throughout the Phase-2 expense cascade, a bucket sells (in
expenses currency) at most `max(0, holding·FX − cash_floor_months · month
expense)`, so its expenses-currency value never drops below the minimum of
its value before the cascade and `cash_floor_months · month_expense`, no
matter how large the remaining expense is or what the other buckets hold. -/
theorem phase2_respects_cash_floor (e : K) (fxr : String → Option K)
    (ccy : String) (tax : K) (s : List (BucketState K)) (i : Nat)
    (b0 b : BucketState K) (h0 : s[i]? = some b0)
    (hb : (phase2 e fxr ccy tax s).1[i]? = some b) :
    (b.amount_sold - b0.amount_sold) * get_fx_rate b0.currency ccy fxr
      ≤ max 0 (b0.amount * get_fx_rate b0.currency ccy fxr
          - b0.cash_floor_months * e) ∧
    min (b0.amount * get_fx_rate b0.currency ccy fxr)
        (b0.cash_floor_months * e)
      ≤ b.amount * get_fx_rate b.currency ccy fxr := by
  have hbase : ∀ (i : Nat) (b0 b2 : BucketState K), s[i]? = some b0 →
      (s, e).1[i]? = some b2 → cascadeFloorInv e fxr ccy b0 b2 := by
    intro i2 b02 b2 h02 hb2
    have : b02 = b2 := Option.some_injective _ (h02.symm.trans hb2)
    exact this ▸ cascadeFloorInv_refl e fxr ccy b02
  have main := foldl_phase2Step_cascadeFloorInv e fxr ccy tax s
    (spendingOrder s) (s, e) hbase i b0 b h0 (by
      unfold phase2 at hb; exact hb)
  obtain ⟨hcur, hfloor, hsum, hval⟩ := main
  refine ⟨?_, hval⟩
  have hdiff : b.amount_sold - b0.amount_sold = b0.amount - b.amount := by
    linarith [hsum]
  rw [hdiff, sub_mul]
  have hid := sub_max_zero_sub_eq_min
    (b0.amount * get_fx_rate b0.currency ccy fxr) (b0.cash_floor_months * e)
  rw [hcur] at hval
  linarith [hval]

/-- Entry state for the cash-floor witness: ten units at price one. -/
def cascadeEntryBucket : BucketState ℚ := { sampleBucket with amount := 10 }

/-- Resulting state of `cascadeEntryBucket` after a Phase-2 cascade with a
month expense of one. -/
def cascadeResultBucket : BucketState ℚ :=
  { sampleBucket with amount := 9, amount_sold := 1, net_spent := 1 }

/-- Witness for `phase2_respects_cash_floor` at a concrete one-bucket
cascade. -/
theorem phase2_respects_cash_floor_witness :
    (([cascadeEntryBucket] : List (BucketState ℚ))[0]? =
      some cascadeEntryBucket) ∧
    ((phase2 1 (fun _ => none) "USD" 0 [cascadeEntryBucket]).1[0]? =
      some cascadeResultBucket) ∧
    ((cascadeResultBucket.amount_sold - cascadeEntryBucket.amount_sold) *
        get_fx_rate cascadeEntryBucket.currency "USD" (fun _ => none)
      ≤ max 0 (cascadeEntryBucket.amount *
          get_fx_rate cascadeEntryBucket.currency "USD" (fun _ => none)
          - cascadeEntryBucket.cash_floor_months * 1) ∧
    min (cascadeEntryBucket.amount *
        get_fx_rate cascadeEntryBucket.currency "USD" (fun _ => none))
        (cascadeEntryBucket.cash_floor_months * 1)
      ≤ cascadeResultBucket.amount *
        get_fx_rate cascadeResultBucket.currency "USD" (fun _ => none)) := by
  have hres : (phase2 1 (fun _ => none) "USD" 0 [cascadeEntryBucket]).1[0]?
      = some cascadeResultBucket := by
    norm_num [phase2, phase2Step, spendingOrder, stableSortBy, stableInsertBy,
      availableExpenses, compute_sell, get_fx_rate, cascadeEntryBucket,
      cascadeResultBucket, sampleBucket, List.range_succ]
  exact ⟨rfl, hres,
    phase2_respects_cash_floor 1 (fun _ => none) "USD" 0 [cascadeEntryBucket]
      0 cascadeEntryBucket cascadeResultBucket rfl hres⟩

/-! Step-1 runaway guard (claim C4). -/

/-- If the runaway guard fails for the bucket at index `i` in the state in
which it is visited, then its Phase-1 visit changes nothing at all: every
path up to the guard (frequency skip, trigger not met, guard itself) returns
the state unchanged. -/
theorem phase1Step_of_runway_lt (e : K) (fxr : String → Option K)
    (ccy : String) (tax : K) (m : Nat) (nameIdx : String → Option Nat)
    (s : List (BucketState K)) (i : Nat)
    (hg : ∀ b : BucketState K, s[i]? = some b →
      cash_runway_months s e fxr ccy < (b.required_runaway_months : WithTop K)) :
    phase1Step e fxr ccy tax m nameIdx s i = s := by
  unfold phase1Step
  rcases hj : s[i]? with _ | b
  · rfl
  dsimp only
  by_cases h1 : b.frequency = "yearly" ∧ m % 12 ≠ 0
  · rw [if_pos h1]
  rw [if_neg h1]
  by_cases h2 : check_sell_trigger b = false
  · rw [if_pos h2]
  rw [if_neg h2, if_pos (hg b hj)]

/-- A Phase-1 visit of bucket `j` never changes the `amount_sold` and
`tax_paid` of another bucket `i`: the only write to a position other than `j`
is the standby credit, which touches `amount`, `amount_bought` and
`fees_paid` only. -/
theorem phase1Step_preserves_sold_tax (e : K) (fxr : String → Option K)
    (ccy : String) (tax : K) (m : Nat) (nameIdx : String → Option Nat)
    (s : List (BucketState K)) (j i : Nat) (hne : j ≠ i) :
    ((phase1Step e fxr ccy tax m nameIdx s j)[i]?).map BucketState.amount_sold
      = (s[i]?).map BucketState.amount_sold ∧
    ((phase1Step e fxr ccy tax m nameIdx s j)[i]?).map BucketState.tax_paid
      = (s[i]?).map BucketState.tax_paid := by
  unfold phase1Step
  rcases hj : s[j]? with _ | b
  · exact ⟨rfl, rfl⟩
  dsimp only
  split
  · exact ⟨rfl, rfl⟩
  split
  · exact ⟨rfl, rfl⟩
  split
  · exact ⟨rfl, rfl⟩
  split
  · exact ⟨rfl, rfl⟩
  split
  · exact ⟨rfl, rfl⟩
  split
  · rw [List.getElem?_set_ne hne]; exact ⟨rfl, rfl⟩
  split
  · rw [List.getElem?_set_ne hne]; exact ⟨rfl, rfl⟩
  rename_i idx heq1 hscr standby hstandby
  split
  · by_cases hki : idx = i
    · subst hki
      rw [List.getElem?_set_ne hne] at hstandby
      rw [List.getElem?_set_self', List.getElem?_set_ne hne, hstandby]
      exact ⟨rfl, rfl⟩
    · rw [List.getElem?_set_ne hki, List.getElem?_set_ne hne]
      exact ⟨rfl, rfl⟩
  · rw [List.getElem?_set_ne hne]; exact ⟨rfl, rfl⟩

/-- Folding Phase-1 visits of buckets other than `i` preserves the
`amount_sold` and `tax_paid` of bucket `i`. -/
theorem foldl_phase1Step_preserves_sold_tax (e : K) (fxr : String → Option K)
    (ccy : String) (tax : K) (m : Nat) (nameIdx : String → Option Nat)
    (l : List Nat) (i : Nat) (hmem : i ∉ l) :
    ∀ s : List (BucketState K),
    ((l.foldl (phase1Step e fxr ccy tax m nameIdx) s)[i]?).map
        BucketState.amount_sold
      = (s[i]?).map BucketState.amount_sold ∧
    ((l.foldl (phase1Step e fxr ccy tax m nameIdx) s)[i]?).map
        BucketState.tax_paid
      = (s[i]?).map BucketState.tax_paid := by
  induction l with
  | nil => intro s; exact ⟨rfl, rfl⟩
  | cons j rest ih =>
    intro s
    have hji : j ≠ i := fun hji => hmem (hji ▸ List.mem_cons_self j rest)
    have hrest : i ∉ rest := fun hr => hmem (List.mem_cons_of_mem j hr)
    have hstep := phase1Step_preserves_sold_tax e fxr ccy tax m nameIdx s j i
      hji
    have hih := ih hrest (phase1Step e fxr ccy tax m nameIdx s j)
    rw [List.foldl_cons]
    exact ⟨hih.1.trans hstep.1, hih.2.trans hstep.2⟩

/-- Splitting the Step-1 visit order `0, …, n−1` around a visited index
`i < n`. -/
theorem range_decompose (n i : Nat) (h : i < n) :
    List.range n
      = List.range i ++ i ::
          (List.range (n - i - 1)).map (fun k => i + 1 + k) := by
  conv_lhs => rw [show n = i + (n - i - 1 + 1) by omega]
  rw [List.range_add, List.range_succ_eq_map]
  congr 1
  simp only [List.map_cons, List.map_map, Nat.add_zero, List.cons.injEq]
  refine ⟨by trivial, List.map_congr_left ?_⟩
  intro a _
  simp only [Function.comp_apply]
  omega

/-- Claim C4, amended.  If, in the state in which bucket `i` is visited
during Step 1, the portfolio-wide cash runway is strictly below the bucket's
`required_runaway_months`, then that visit is a no-op (the bucket performs no
Step-1 sale, however large its sell-trigger ratio), and the bucket's
`amount_sold` and `tax_paid` are unchanged by the whole of Step 1.  Its
`amount`, `amount_bought` and `fees_paid` may nevertheless change, because
another bucket may buy into it as its standby; the counterexample to the
original claim exhibits exactly that. -/
theorem step1_runway_guard_blocks_sale (e : K) (fxr : String → Option K)
    (ccy : String) (tax : K) (m : Nat) (nameIdx : String → Option Nat)
    (s : List (BucketState K)) (i : Nat) (hi : i < s.length)
    (hguard : ∀ b : BucketState K,
      ((List.range i).foldl (phase1Step e fxr ccy tax m nameIdx) s)[i]?
        = some b →
      cash_runway_months
          ((List.range i).foldl (phase1Step e fxr ccy tax m nameIdx) s)
          e fxr ccy
        < (b.required_runaway_months : WithTop K)) :
    phase1Step e fxr ccy tax m nameIdx
        ((List.range i).foldl (phase1Step e fxr ccy tax m nameIdx) s) i
      = (List.range i).foldl (phase1Step e fxr ccy tax m nameIdx) s ∧
    ((phase1 e fxr ccy tax m nameIdx s)[i]?).map BucketState.amount_sold
      = (s[i]?).map BucketState.amount_sold ∧
    ((phase1 e fxr ccy tax m nameIdx s)[i]?).map BucketState.tax_paid
      = (s[i]?).map BucketState.tax_paid := by
  have hid := phase1Step_of_runway_lt e fxr ccy tax m nameIdx
    ((List.range i).foldl (phase1Step e fxr ccy tax m nameIdx) s) i hguard
  have hnm1 : i ∉ List.range i := by simp [List.mem_range]
  have hnm2 : i ∉ (List.range (s.length - i - 1)).map (fun k => i + 1 + k) := by
    simp only [List.mem_map, List.mem_range, not_exists]
    intro a
    omega
  have h1 := foldl_phase1Step_preserves_sold_tax e fxr ccy tax m nameIdx
    (List.range i) i hnm1 s
  have h2 := foldl_phase1Step_preserves_sold_tax e fxr ccy tax m nameIdx
    ((List.range (s.length - i - 1)).map (fun k => i + 1 + k)) i hnm2
    ((List.range i).foldl (phase1Step e fxr ccy tax m nameIdx) s)
  refine ⟨hid, ?_, ?_⟩
  · unfold phase1
    rw [range_decompose s.length i hi, List.foldl_append, List.foldl_cons, hid]
    exact h2.1.trans h1.1
  · unfold phase1
    rw [range_decompose s.length i hi, List.foldl_append, List.foldl_cons, hid]
    exact h2.2.trans h1.2

/-- Evaluation form of the runaway-guard comparison for a positive monthly
expense. -/
theorem cash_runway_months_lt_coe (s : List (BucketState K)) (e : K)
    (fxr : String → Option K) (ccy : String) (q : K) (he : 0 < e) :
    cash_runway_months s e fxr ccy < (q : WithTop K)
      ↔ (s.map fun b => bucket_value_in_expenses_currency b
          (get_fx_rate b.currency ccy fxr)).sum / e < q := by
  rw [cash_runway_months, if_neg (not_le.mpr he), WithTop.coe_lt_coe]

/-- Bucket used by the runway-guard witness: trigger fires hugely but the
portfolio runway (half a month) is below the required twelve months. -/

def guardWitnessBucket : BucketState ℚ :=
  { sampleBucket with
    price := 200, amount := 500, initial_price := 100,
    target_growth_pct := 10, sell_trigger := 1/10,
    required_runaway_months := 12 }

theorem guard_witness_runway :
    ∀ b : BucketState ℚ,
      ((List.range 0).foldl
          (phase1Step 1000 (fun _ => none) "USD" 0 0
            (nameToIndex [guardWitnessBucket])) [guardWitnessBucket])[0]?
        = some b →
      cash_runway_months
          ((List.range 0).foldl
            (phase1Step 1000 (fun _ => none) "USD" 0 0
              (nameToIndex [guardWitnessBucket])) [guardWitnessBucket])
          1000 (fun _ => none) "USD"
        < (b.required_runaway_months : WithTop ℚ) := by
  intro b hb
  have hb2 : guardWitnessBucket = b := by simpa using hb
  subst hb2
  simp only [List.range_zero, List.foldl_nil]
  rw [cash_runway_months_lt_coe _ _ _ _ _ (by norm_num : (0:ℚ) < 1000)]
  norm_num [bucket_value_in_expenses_currency, get_fx_rate,
    guardWitnessBucket, sampleBucket]

def guardSellerBucket : BucketState ℚ :=
  { sampleBucket with
    name := "A", price := 10, amount := 1,
    target_growth_pct := 10, standby_bucket := some "B",
    required_runaway_months := 0 }

def guardStandbyBucket : BucketState ℚ :=
  { sampleBucket with
    name := "B", price := 1/2, amount := 0,
    target_growth_pct := 0, required_runaway_months := 1000000 }

def guardPair : List (BucketState ℚ) := [guardSellerBucket, guardStandbyBucket]

def guardSellerAfter : BucketState ℚ :=
  { guardSellerBucket with
    amount := 11/100, amount_sold := 89/100 }

def guardStandbyAfter : BucketState ℚ :=
  { guardStandbyBucket with
    amount := 89/100, amount_bought := 89/100 }

theorem guard_cex_s1 :
    (List.range 1).foldl
        (phase1Step 100 (fun _ => none) "USD" 0 0 (nameToIndex guardPair))
        guardPair
      = [guardSellerAfter, guardStandbyAfter] := by
  norm_num [List.range_succ, phase1Step, guardPair, nameToIndex,
    standbyIndex, check_sell_trigger, check_buy_trigger, cash_runway_months,
    bucket_value_in_expenses_currency, get_fx_rate, compute_sell, compute_buy,
    guardSellerBucket, guardStandbyBucket, sampleBucket, guardSellerAfter,
    guardStandbyAfter, decide_eq_false_iff_not, decide_eq_true_eq,
    WithTop.coe_lt_coe, List.range_zero, List.foldl_nil, List.foldl_cons]
  simp only [show (("B":String) = "") = False by simp, if_false]
  norm_num [guardStandbyBucket, sampleBucket, guardStandbyAfter,
    check_buy_trigger, get_fx_rate, compute_buy, decide_eq_true_eq]

theorem step1_runway_guard_claim_false :
    (∀ b : BucketState ℚ,
      ((List.range 1).foldl
          (phase1Step 100 (fun _ => none) "USD" 0 0 (nameToIndex guardPair))
          guardPair)[1]? = some b →
      cash_runway_months
          ((List.range 1).foldl
            (phase1Step 100 (fun _ => none) "USD" 0 0 (nameToIndex guardPair))
            guardPair) 100 (fun _ => none) "USD"
        < (b.required_runaway_months : WithTop ℚ)) ∧
    ((phase1 100 (fun _ => none) "USD" 0 0 (nameToIndex guardPair)
        guardPair)[1]?).map BucketState.amount
      ≠ (guardPair[1]?).map BucketState.amount := by
  have hs1 := guard_cex_s1
  constructor
  · intro b hb
    rw [hs1] at hb ⊢
    have hb2 : guardStandbyAfter = b := by simpa using hb
    subst hb2
    rw [cash_runway_months_lt_coe _ _ _ _ _ (by norm_num : (0:ℚ) < 100)]
    norm_num [bucket_value_in_expenses_currency, get_fx_rate,
      guardSellerAfter, guardStandbyAfter, guardSellerBucket,
      guardStandbyBucket, sampleBucket]
  · have hphase : phase1 100 (fun _ => none) "USD" 0 0
        (nameToIndex guardPair) guardPair
        = [guardSellerAfter, guardStandbyAfter] := by
      unfold phase1
      have hlen : guardPair.length = 2 := rfl
      rw [hlen, show List.range 2 = List.range 1 ++ [1] from by
        rw [List.range_succ], List.foldl_append, hs1]
      rw [List.foldl_cons, List.foldl_nil]
      norm_num [phase1Step, check_sell_trigger, guardSellerAfter,
        guardStandbyAfter, guardStandbyBucket, sampleBucket]
    rw [hphase]
    norm_num [guardPair, guardStandbyAfter, guardStandbyBucket, sampleBucket]

theorem step1_runway_guard_blocks_sale_witness :
    ((0:Nat) < ([guardWitnessBucket] : List (BucketState ℚ)).length) ∧
    (phase1Step 1000 (fun _ => none) "USD" 0 0
        (nameToIndex [guardWitnessBucket])
        ((List.range 0).foldl
          (phase1Step 1000 (fun _ => none) "USD" 0 0
            (nameToIndex [guardWitnessBucket])) [guardWitnessBucket]) 0
      = (List.range 0).foldl
          (phase1Step 1000 (fun _ => none) "USD" 0 0
            (nameToIndex [guardWitnessBucket])) [guardWitnessBucket] ∧
    ((phase1 1000 (fun _ => none) "USD" 0 0
        (nameToIndex [guardWitnessBucket]) [guardWitnessBucket])[0]?).map
          BucketState.amount_sold
      = (([guardWitnessBucket] : List (BucketState ℚ))[0]?).map
          BucketState.amount_sold ∧
    ((phase1 1000 (fun _ => none) "USD" 0 0
        (nameToIndex [guardWitnessBucket]) [guardWitnessBucket])[0]?).map
          BucketState.tax_paid
      = (([guardWitnessBucket] : List (BucketState ℚ))[0]?).map
          BucketState.tax_paid) :=
  ⟨by norm_num,
    step1_runway_guard_blocks_sale 1000 (fun _ => none) "USD" 0 0
      (nameToIndex [guardWitnessBucket]) [guardWitnessBucket] 0
      (by norm_num) guard_witness_runway⟩

/-! Holding non-negativity (claim C5). -/

/-- The FX lookup is non-negative whenever every stored rate is. -/
theorem get_fx_rate_nonneg (c ccy : String) (fxr : String → Option K)
    (hfx : ∀ c2 v, fxr c2 = some v → 0 ≤ v) : 0 ≤ get_fx_rate c ccy fxr := by
  unfold get_fx_rate
  split
  · exact zero_le_one
  · rcases hc : fxr c with _ | v
    · simp
    · simpa using hfx c v hc

/-- With a capital-gains rate between 0 and 100 the after-tax proceeds of a
sale with non-negative net proceeds and cost basis are non-negative. -/
theorem after_tax_nonneg (net cb t : K) (hnet : 0 ≤ net) (hcb : 0 ≤ cb)
    (ht0 : 0 ≤ t) (ht1 : t ≤ 100) :
    0 ≤ net - max 0 ((net - cb) * t / 100) := by
  rcases le_or_lt (net - cb) 0 with hg | hg
  · have hnum : (net - cb) * t ≤ 0 := mul_nonpos_iff.mpr (Or.inr ⟨hg, ht0⟩)
    have hx : (net - cb) * t / 100 ≤ 0 := by
      apply div_nonpos_of_nonpos_of_nonneg hnum
      norm_num
    rw [max_eq_left hx]
    linarith
  · rw [max_eq_right (div_nonneg (mul_nonneg hg.le ht0) (by norm_num))]
    nlinarith [mul_le_mul_of_nonneg_left ht1 hg.le]

/-- Selling the above-trajectory fraction leaves a non-negative holding when
the target price is positive. -/
theorem seller_amount_nonneg (amount price initial tg : K) (ha : 0 ≤ amount)
    (hp : 0 < price) (hip : 0 < initial) (htg : -100 < tg) :
    0 ≤ amount - amount * ((price - initial * (1 + tg / 100)) / price) := by
  have htp : (0:K) < initial * (1 + tg / 100) := mul_pos hip (by linarith)
  have key : amount - amount * ((price - initial * (1 + tg / 100)) / price)
      = amount * (initial * (1 + tg / 100)) / price := by
    field_simp
    ring
  rw [key]
  positivity

/-- Buying with a fee of at most 100 percent invests a non-negative amount
whenever the spend is non-negative. -/
theorem compute_buy_nonneg (spend fee : K) (hs : 0 ≤ spend) (hf : fee ≤ 100) :
    0 ≤ (compute_buy spend fee).1 := by
  unfold compute_buy
  dsimp only
  nlinarith [mul_le_mul_of_nonneg_left hf hs]

/-- Per-bucket precondition for claim C5: non-negative holding, positive
prices, target growth above −100 percent, fee between 0 and 100, and a
non-negative cash floor. -/
def bucketPos (b : BucketState K) : Prop :=
  0 ≤ b.amount ∧ 0 < b.price ∧ 0 < b.initial_price ∧
  -100 < b.target_growth_pct ∧ 0 ≤ b.buy_sell_fee_pct ∧
  b.buy_sell_fee_pct ≤ 100 ∧ 0 ≤ b.cash_floor_months

/-- A Phase-1 visit preserves `bucketPos` at every index, given bounded tax
and non-negative FX rates. -/
theorem phase1Step_preserves_bucketPos (e : K) (fxr : String → Option K)
    (ccy : String) (tax : K) (m : Nat) (nameIdx : String → Option Nat)
    (s : List (BucketState K)) (j : Nat)
    (htax0 : 0 ≤ tax) (htax1 : tax ≤ 100)
    (hfx : ∀ c2 v, fxr c2 = some v → 0 ≤ v)
    (h : ∀ (i : Nat) (b : BucketState K), s[i]? = some b → bucketPos b) :
    ∀ (i : Nat) (b : BucketState K),
      (phase1Step e fxr ccy tax m nameIdx s j)[i]? = some b → bucketPos b := by
  intro i b hb
  unfold phase1Step at hb
  rcases hj : s[j]? with _ | bj
  · rw [hj] at hb; exact h i b hb
  rw [hj] at hb
  dsimp only at hb
  obtain ⟨hA, hP, hIP, hTG, hF0, hF1, hCF⟩ := h j bj hj
  split at hb
  · exact h i b hb
  split at hb
  · exact h i b hb
  split at hb
  · exact h i b hb
  split at hb
  · exact h i b hb
  split at hb
  · exact h i b hb
  rename_i hexc hsell
  have hsellpos : 0 < bj.amount * ((bj.price
      - bj.initial_price * (1 + bj.target_growth_pct / 100)) / bj.price) :=
    lt_of_not_le hsell
  have hnet : 0 ≤ (compute_sell (bj.amount * ((bj.price
      - bj.initial_price * (1 + bj.target_growth_pct / 100)) / bj.price))
      bj.buy_sell_fee_pct).1 := by
    unfold compute_sell
    dsimp only
    nlinarith [mul_le_mul_of_nonneg_left hF1 hsellpos.le]
  have hcb : 0 ≤ bj.amount * ((bj.price
      - bj.initial_price * (1 + bj.target_growth_pct / 100)) / bj.price)
      * (bj.initial_price / bj.price) :=
    mul_nonneg hsellpos.le (div_nonneg hIP.le hP.le)
  have hat : 0 ≤ (compute_sell (bj.amount * ((bj.price
      - bj.initial_price * (1 + bj.target_growth_pct / 100)) / bj.price))
      bj.buy_sell_fee_pct).1
      - max 0 (((compute_sell (bj.amount * ((bj.price
        - bj.initial_price * (1 + bj.target_growth_pct / 100)) / bj.price))
        bj.buy_sell_fee_pct).1
        - bj.amount * ((bj.price
          - bj.initial_price * (1 + bj.target_growth_pct / 100)) / bj.price)
          * (bj.initial_price / bj.price)) * tax / 100) :=
    after_tax_nonneg _ _ tax hnet hcb htax0 htax1
  have hseller : bucketPos ({ bj with
      amount := bj.amount - bj.amount * ((bj.price
        - bj.initial_price * (1 + bj.target_growth_pct / 100)) / bj.price),
      amount_sold := bj.amount_sold + bj.amount * ((bj.price
        - bj.initial_price * (1 + bj.target_growth_pct / 100)) / bj.price),
      fees_paid := bj.fees_paid + (compute_sell (bj.amount * ((bj.price
        - bj.initial_price * (1 + bj.target_growth_pct / 100)) / bj.price))
        bj.buy_sell_fee_pct).2 * get_fx_rate bj.currency ccy fxr,
      tax_paid := bj.tax_paid + max 0 (((compute_sell (bj.amount * ((bj.price
        - bj.initial_price * (1 + bj.target_growth_pct / 100)) / bj.price))
        bj.buy_sell_fee_pct).1
        - bj.amount * ((bj.price
          - bj.initial_price * (1 + bj.target_growth_pct / 100)) / bj.price)
          * (bj.initial_price / bj.price)) * tax / 100)
        * get_fx_rate bj.currency ccy fxr } : BucketState K) := by
    refine ⟨?_, hP, hIP, hTG, hF0, hF1, hCF⟩
    exact seller_amount_nonneg bj.amount bj.price bj.initial_price
      bj.target_growth_pct hA hP hIP hTG
  have hsetj : ∀ b2lit : BucketState K, bucketPos b2lit →
      ∀ (i2 : Nat) (b2 : BucketState K),
      (s.set j b2lit)[i2]? = some b2 → bucketPos b2 := by
    intro b2lit hPlit i2 b2 hb2
    by_cases hji : j = i2
    · subst hji
      rw [List.getElem?_set_self', hj] at hb2
      exact (Option.some_injective _ hb2) ▸ hPlit
    · rw [List.getElem?_set_ne hji] at hb2
      exact h i2 b2 hb2
  split at hb
  · exact hsetj _ hseller i b hb
  split at hb
  · exact hsetj _ hseller i b hb
  rename_i k hk hscr standby hstandby
  have hPstd := hsetj _ hseller k standby hstandby
  obtain ⟨sA, sP, sIP, sTG, sF0, sF1, sCF⟩ := hPstd
  split at hb
  · rename_i hbuy
    by_cases hki : k = i
    · subst hki
      rw [List.getElem?_set_self', hstandby] at hb
      have hbeq := (Option.some_injective _ hb).symm
      subst hbeq
      refine ⟨?_, sP, sIP, sTG, sF0, sF1, sCF⟩
      have hbuyamt : 0 ≤ (if 0 < get_fx_rate standby.currency ccy fxr then
          ((compute_sell (bj.amount * ((bj.price
            - bj.initial_price * (1 + bj.target_growth_pct / 100)) / bj.price))
            bj.buy_sell_fee_pct).1
            - max 0 (((compute_sell (bj.amount * ((bj.price
              - bj.initial_price * (1 + bj.target_growth_pct / 100)) / bj.price))
              bj.buy_sell_fee_pct).1
              - bj.amount * ((bj.price
                - bj.initial_price * (1 + bj.target_growth_pct / 100)) / bj.price)
                * (bj.initial_price / bj.price)) * tax / 100))
            * get_fx_rate bj.currency ccy fxr
            / get_fx_rate standby.currency ccy fxr
          else 0) := by
        split
        · rename_i hsfx
          apply div_nonneg _ hsfx.le
          exact mul_nonneg hat (get_fx_rate_nonneg bj.currency ccy fxr hfx)
        · exact le_refl 0
      have hinv := compute_buy_nonneg _ standby.buy_sell_fee_pct hbuyamt sF1
      simpa using add_nonneg sA hinv
    · rw [List.getElem?_set_ne hki] at hb
      exact hsetj _ hseller i b hb
  · exact hsetj _ hseller i b hb

/-- A Phase-2 cascade step preserves `bucketPos` at every index when the
monthly expense is positive. -/
theorem phase2Step_preserves_bucketPos (e : K) (fxr : String → Option K)
    (ccy : String) (tax : K) (htax0 : 0 ≤ tax) (htax1 : tax ≤ 100)
    (he : 0 < e) (s : List (BucketState K)) (r : K) (j : Nat)
    (h : ∀ (i : Nat) (b : BucketState K), s[i]? = some b → bucketPos b) :
    ∀ (i : Nat) (b : BucketState K),
      (phase2Step e fxr ccy tax (s, r) j).1[i]? = some b → bucketPos b := by
  intro i b hb
  unfold phase2Step at hb
  by_cases hr : r ≤ 0
  · exact h i b (by simpa [hr] using hb)
  rw [if_neg hr] at hb
  rcases hj : s[j]? with _ | bj
  · rw [hj] at hb; exact h i b hb
  rw [hj] at hb
  dsimp only at hb
  obtain ⟨hA, hP, hIP, hTG, hF0, hF1, hCF⟩ := h j bj hj
  by_cases hfxj : get_fx_rate bj.currency ccy fxr ≤ 0
  · rw [if_pos hfxj] at hb; exact h i b hb
  rw [if_neg hfxj] at hb
  by_cases hav : availableExpenses bj (get_fx_rate bj.currency ccy fxr) e ≤ 0
  · rw [if_pos hav] at hb; exact h i b hb
  rw [if_neg hav] at hb
  dsimp only at hb
  by_cases hji : j = i
  · subst hji
    rw [List.getElem?_set_self', hj] at hb
    have hbeq := (Option.some_injective _ hb).symm
    subst hbeq
    refine ⟨?_, by simpa using hP, by simpa using hIP, by simpa using hTG,
      by simpa using hF0, by simpa using hF1, by simpa using hCF⟩
    have hfxpos : (0:K) < get_fx_rate bj.currency ccy fxr := lt_of_not_le hfxj
    have hle : min r (availableExpenses bj (get_fx_rate bj.currency ccy fxr) e)
        ≤ bj.amount * get_fx_rate bj.currency ccy fxr := by
      refine le_trans (min_le_right _ _) ?_
      unfold availableExpenses
      have hfloor : 0 ≤ bj.cash_floor_months * e := mul_nonneg hCF he.le
      have hval : 0 ≤ bj.amount * get_fx_rate bj.currency ccy fxr :=
        mul_nonneg hA hfxpos.le
      exact max_le hval (by linarith)
    simp only [Function.const_apply]
    rw [sub_nonneg, div_le_iff hfxpos]
    exact hle
  · rw [List.getElem?_set_ne hji] at hb
    exact h i b hb

/-- Folding Phase-2 steps preserves `bucketPos` for a positive monthly
expense. -/
theorem foldl_phase2Step_preserves_bucketPos (e : K) (fxr : String → Option K)
    (ccy : String) (tax : K) (htax0 : 0 ≤ tax) (htax1 : tax ≤ 100)
    (he : 0 < e) (order : List Nat) :
    ∀ acc : List (BucketState K) × K,
      (∀ (i : Nat) (b : BucketState K), acc.1[i]? = some b → bucketPos b) →
      ∀ (i : Nat) (b : BucketState K),
        (order.foldl (phase2Step e fxr ccy tax) acc).1[i]? = some b →
        bucketPos b := by
  induction order with
  | nil => intro acc hacc i b hb; exact hacc i b (by simpa using hb)
  | cons j rest ih =>
    intro acc hacc i b hb
    rw [List.foldl_cons] at hb
    refine ih (phase2Step e fxr ccy tax acc j) ?_ i b hb
    intro i2 b2 hb2
    obtain ⟨s2, r2⟩ := acc
    exact phase2Step_preserves_bucketPos e fxr ccy tax htax0 htax1 he s2 r2 j
      hacc i2 b2 hb2

/-- With a non-positive remaining expense every Phase-2 step is skipped. -/
theorem foldl_phase2Step_of_nonpos (e : K) (fxr : String → Option K)
    (ccy : String) (tax : K) (order : List Nat) :
    ∀ (s : List (BucketState K)) (r : K), r ≤ 0 →
      order.foldl (phase2Step e fxr ccy tax) (s, r) = (s, r) := by
  induction order with
  | nil => intro s r _; rfl
  | cons j rest ih =>
    intro s r hr
    rw [List.foldl_cons, show phase2Step e fxr ccy tax (s, r) j = (s, r) from
      by unfold phase2Step; dsimp only; rw [if_pos hr]]
    exact ih s r hr

/-- Folding Phase-1 visits preserves `bucketPos`. -/
theorem foldl_phase1Step_preserves_bucketPos (e : K) (fxr : String → Option K)
    (ccy : String) (tax : K) (m : Nat) (nameIdx : String → Option Nat)
    (htax0 : 0 ≤ tax) (htax1 : tax ≤ 100)
    (hfx : ∀ c2 v, fxr c2 = some v → 0 ≤ v) (l : List Nat) :
    ∀ s : List (BucketState K),
      (∀ (i : Nat) (b : BucketState K), s[i]? = some b → bucketPos b) →
      ∀ (i : Nat) (b : BucketState K),
        (l.foldl (phase1Step e fxr ccy tax m nameIdx) s)[i]? = some b →
        bucketPos b := by
  induction l with
  | nil => intro s hs i b hb; exact hs i b hb
  | cons j rest ih =>
    intro s hs i b hb
    rw [List.foldl_cons] at hb
    exact ih (phase1Step e fxr ccy tax m nameIdx s j)
      (phase1Step_preserves_bucketPos e fxr ccy tax m nameIdx s j htax0 htax1
        hfx hs) i b hb

/-- The monthly counter reset preserves `bucketPos`. -/
theorem reset_preserves_bucketPos (s : List (BucketState K))
    (hs : ∀ (i : Nat) (b : BucketState K), s[i]? = some b → bucketPos b) :
    ∀ (i : Nat) (b : BucketState K),
      (s.map resetMonth)[i]? = some b → bucketPos b := by
  intro i b hb
  rw [List.getElem?_map] at hb
  rcases hi : s[i]? with _ | a
  · rw [hi] at hb; cases hb
  rw [hi] at hb
  have hba := (Option.some_injective _ hb).symm
  subst hba
  exact hs i a hi

/-- Claim C5, amended.  If every bucket starts the month with a non-negative
holding, positive price and initial price, target growth above −100 percent,
fee between 0 and 100 percent and a non-negative cash floor, and additionally
the capital-gains tax rate lies in [0, 100] and every FX rate in the table is
non-negative, then every bucket's holding is still non-negative after
`execute_rebalance`.  Without the two additional hypotheses the original
claim is false; see the counterexample. -/
theorem execute_rebalance_amount_nonneg (s : List (BucketState K)) (e : K)
    (fxr : String → Option K) (cfg : SimConfig K) (m : Nat)
    (htax0 : 0 ≤ cfg.capital_gain_tax_pct)
    (htax1 : cfg.capital_gain_tax_pct ≤ 100)
    (hfx : ∀ c2 v, fxr c2 = some v → 0 ≤ v)
    (hbkt : ∀ (i : Nat) (b : BucketState K), s[i]? = some b → bucketPos b) :
    ∀ (i : Nat) (b : BucketState K),
      (execute_rebalance s e fxr cfg m).1[i]? = some b → 0 ≤ b.amount := by
  intro i b hb
  unfold execute_rebalance at hb
  dsimp only at hb
  have hreset := reset_preserves_bucketPos s hbkt
  have hp1 := foldl_phase1Step_preserves_bucketPos e fxr
    cfg.expenses_currency cfg.capital_gain_tax_pct m
    (nameToIndex (s.map resetMonth)) htax0 htax1 hfx
    (List.range (s.map resetMonth).length) (s.map resetMonth) hreset
  rcases le_or_lt e 0 with he | he
  · unfold phase2 at hb
    rw [foldl_phase2Step_of_nonpos e fxr cfg.expenses_currency
      cfg.capital_gain_tax_pct _ _ e he] at hb
    exact (hp1 i b hb).1
  · have hp2 := foldl_phase2Step_preserves_bucketPos e fxr
      cfg.expenses_currency cfg.capital_gain_tax_pct htax0 htax1 he
      (spendingOrder (phase1 e fxr cfg.expenses_currency
        cfg.capital_gain_tax_pct m (nameToIndex (s.map resetMonth))
        (s.map resetMonth)))
      (phase1 e fxr cfg.expenses_currency cfg.capital_gain_tax_pct m
        (nameToIndex (s.map resetMonth)) (s.map resetMonth), e)
      (fun i2 b2 hb2 => hp1 i2 b2 hb2) i b (by
        unfold phase2 at hb
        exact hb)
    exact hp2.1

/-- Configuration with a 300 percent capital-gains tax rate (never validated
anywhere in the code or the spec invariants of section 3). -/
def taxConfig : SimConfig ℚ :=
  { sampleConfig with
    capital_gain_tax_pct := 300 }

def taxedSellerAfter : BucketState ℚ :=
  { guardSellerBucket with
    amount := 11/100, amount_sold := 89/100, tax_paid := 2403/1000 }

def taxedStandbyAfter : BucketState ℚ :=
  { guardStandbyBucket with
    amount := -1513/1000, amount_bought := -1513/1000 }

theorem taxed_rebalance_result :
    (execute_rebalance guardPair 0 (fun _ => none) taxConfig 0).1
      = [taxedSellerAfter, taxedStandbyAfter] := by
  unfold execute_rebalance
  norm_num [List.range_succ, phase1, phase2, phase1Step, phase2Step,
    resetMonth, guardPair, nameToIndex, standbyIndex, check_sell_trigger,
    check_buy_trigger, cash_runway_months, bucket_value_in_expenses_currency,
    get_fx_rate, compute_sell, compute_buy, guardSellerBucket,
    guardStandbyBucket, sampleBucket, taxedSellerAfter, taxedStandbyAfter,
    taxConfig, sampleConfig, spendingOrder, stableSortBy, stableInsertBy,
    decide_eq_false_iff_not, decide_eq_true_eq, List.range_zero,
    List.foldl_nil, List.foldl_cons]
  simp only [show (("B":String) = "") = False by simp, if_false]
  norm_num [guardStandbyBucket, sampleBucket, taxedStandbyAfter,
    check_buy_trigger, get_fx_rate, compute_buy, decide_eq_true_eq]
  rw [foldl_phase2Step_of_nonpos 0 (fun _ => none) "USD" 300 _ _ 0 le_rfl]

/-- Claim C5, counterexample.  All of the claim's hypotheses hold for the
`guardPair` buckets (non-negative amounts, positive prices, growth targets
above −100, zero fees, zero floors), yet with a 300 percent capital-gains
rate the standby bucket's holding is driven negative by the Step-1 standby
buy: the after-tax proceeds are negative and are credited as a negative
investment. -/
theorem rebalance_nonneg_claim_false :
    (∀ (i : Nat) (b : BucketState ℚ), guardPair[i]? = some b → bucketPos b) ∧
    ¬ (∀ (i : Nat) (b : BucketState ℚ),
        (execute_rebalance guardPair 0 (fun _ => none) taxConfig 0).1[i]?
          = some b → 0 ≤ b.amount) := by
  constructor
  · intro i b hb
    rcases i with _ | i
    · have hb2 : guardSellerBucket = b := by simpa [guardPair] using hb
      subst hb2
      norm_num [bucketPos, guardSellerBucket, sampleBucket]
    rcases i with _ | i
    · have hb2 : guardStandbyBucket = b := by simpa [guardPair] using hb
      subst hb2
      norm_num [bucketPos, guardStandbyBucket, sampleBucket]
    · simp [guardPair] at hb
  · intro hall
    have h1 := hall 1 taxedStandbyAfter (by rw [taxed_rebalance_result]; rfl)
    norm_num [taxedStandbyAfter, guardStandbyBucket, sampleBucket] at h1

/-- Witness for `execute_rebalance_amount_nonneg` at a concrete one-bucket
month. -/
theorem execute_rebalance_amount_nonneg_witness :
    ((0:ℚ) ≤ sampleConfig.capital_gain_tax_pct) ∧
    (sampleConfig.capital_gain_tax_pct ≤ 100) ∧
    (∀ c2 v, (fun _ : String => (none : Option ℚ)) c2 = some v → 0 ≤ v) ∧
    (∀ (i : Nat) (b : BucketState ℚ),
      ([cascadeEntryBucket] : List (BucketState ℚ))[i]? = some b →
      bucketPos b) ∧
    (∀ (i : Nat) (b : BucketState ℚ),
      (execute_rebalance [cascadeEntryBucket] 1 (fun _ => none) sampleConfig
        0).1[i]? = some b → 0 ≤ b.amount) := by
  have hfx : ∀ c2 v, (fun _ : String => (none : Option ℚ)) c2 = some v →
      0 ≤ v := by
    intro c2 v h
    simp at h
  have hbkt : ∀ (i : Nat) (b : BucketState ℚ),
      ([cascadeEntryBucket] : List (BucketState ℚ))[i]? = some b →
      bucketPos b := by
    intro i b hb
    rcases i with _ | i
    · have hb2 : cascadeEntryBucket = b := by simpa using hb
      subst hb2
      norm_num [bucketPos, cascadeEntryBucket, sampleBucket]
    · simp at hb
  exact ⟨by norm_num [sampleConfig], by norm_num [sampleConfig], hfx, hbkt,
    execute_rebalance_amount_nonneg [cascadeEntryBucket] 1 (fun _ => none)
      sampleConfig 0 (by norm_num [sampleConfig]) (by norm_num [sampleConfig])
      hfx hbkt⟩

/-! Runway and cascade availability ignore prices (claim C9). -/

/-- The expenses-currency value list read by the runway computation is
unchanged when every bucket's price is replaced arbitrarily. -/
theorem mapIdx_price_value_map (ccy : String) (fxr : String → Option K)
    (s : List (BucketState K)) :
    ∀ g : Nat → K,
      ((s.mapIdx fun i b => { b with price := g i }).map fun b =>
        bucket_value_in_expenses_currency b (get_fx_rate b.currency ccy fxr))
      = s.map fun b =>
          bucket_value_in_expenses_currency b
            (get_fx_rate b.currency ccy fxr) := by
  induction s with
  | nil => intro g; rfl
  | cons a rest ih =>
    intro g
    rw [List.mapIdx_cons, List.map_cons, List.map_cons,
      ih (fun i => g (i + 1))]
    rfl

/-- Claim C9.  The runway guard and the Phase-2 availability depend on a
bucket only through `holding amount × FX rate` (and the cash floor): changing
every bucket's price changes neither the portfolio runway nor the amount a
bucket can contribute toward expenses, and for a positive month expense the
runway is exactly the FX-converted holdings sum divided by the expense
(`+∞`, modelled as `⊤`, for a non-positive expense). -/
theorem runway_and_available_ignore_price (s : List (BucketState K)) (e : K)
    (fxr : String → Option K) (ccy : String) (g : Nat → K) :
    cash_runway_months (s.mapIdx fun i b => { b with price := g i }) e fxr ccy
      = cash_runway_months s e fxr ccy ∧
    (∀ (b : BucketState K) (p : K),
      availableExpenses { b with price := p }
          (get_fx_rate b.currency ccy fxr) e
        = availableExpenses b (get_fx_rate b.currency ccy fxr) e) ∧
    cash_runway_months s e fxr ccy
      = if e ≤ 0 then ⊤
        else (((s.map fun b =>
            b.amount * get_fx_rate b.currency ccy fxr).sum / e : K)
          : WithTop K) := by
  refine ⟨?_, fun b p => rfl, rfl⟩
  unfold cash_runway_months
  rw [mapIdx_price_value_map ccy fxr s g]

/-! The `buying_priority` field has no effect (claim C10). -/

/-- Two bucket-state lists that agree everywhere except that the second one
carries `g i` as the `buying_priority` of position `i`. -/
def eqExceptBP (g : Nat → Int) (s s2 : List (BucketState K)) : Prop :=
  s.length = s2.length ∧
  ∀ (i : Nat) (b : BucketState K), s[i]? = some b →
    s2[i]? = some { b with buying_priority := g i }

theorem eqExceptBP_none {g : Nat → Int} {s s2 : List (BucketState K)}
    (h : eqExceptBP g s s2) {i : Nat} (hi : s[i]? = none) : s2[i]? = none := by
  rw [List.getElem?_eq_none_iff] at hi ⊢
  rcases h with ⟨hl, _⟩
  omega

theorem check_sell_trigger_set_bp (b : BucketState K) (x : Int) :
    check_sell_trigger { b with buying_priority := x } = check_sell_trigger b :=
  rfl

theorem check_buy_trigger_set_bp (b : BucketState K) (x : Int) :
    check_buy_trigger { b with buying_priority := x } = check_buy_trigger b :=
  rfl

theorem availableExpenses_set_bp (b : BucketState K) (x : Int) (fx e : K) :
    availableExpenses { b with buying_priority := x } fx e
      = availableExpenses b fx e :=
  rfl

/-- The FX-converted value lists of related states agree, hence so do their
runways. -/
theorem eqExceptBP_runway (g : Nat → Int) (s s2 : List (BucketState K))
    (h : eqExceptBP g s s2) (e : K) (fxr : String → Option K) (ccy : String) :
    cash_runway_months s2 e fxr ccy = cash_runway_months s e fxr ccy := by
  unfold cash_runway_months
  have hmap : s2.map (fun b => bucket_value_in_expenses_currency b
      (get_fx_rate b.currency ccy fxr))
      = s.map (fun b => bucket_value_in_expenses_currency b
        (get_fx_rate b.currency ccy fxr)) := by
    apply List.ext_getElem?
    intro i
    rw [List.getElem?_map, List.getElem?_map]
    rcases hi : s[i]? with _ | b
    · rw [eqExceptBP_none h hi]
    · rw [h.2 i b hi]
      rfl
  rw [hmap]

/-- Related states resolve bucket names to the same indices. -/
theorem eqExceptBP_nameToIndex (g : Nat → Int) (s s2 : List (BucketState K))
    (h : eqExceptBP g s s2) (nm : String) :
    nameToIndex s2 nm = nameToIndex s nm := by
  unfold nameToIndex
  rw [← h.1]
  have hname : ∀ i : Nat, (s2[i]?).map BucketState.name
      = (s[i]?).map BucketState.name := by
    intro i
    rcases hi : s[i]? with _ | b
    · rw [eqExceptBP_none h hi]
    · rw [h.2 i b hi]
      rfl
  have hfun : (fun (acc : Option Nat) (i : Nat) =>
      if (s2[i]?).map BucketState.name = some nm then some i else acc)
      = (fun (acc : Option Nat) (i : Nat) =>
        if (s[i]?).map BucketState.name = some nm then some i else acc) := by
    funext acc i
    simp only [hname i]
  rw [hfun]

/-- Related states have the same spending order. -/
theorem eqExceptBP_spendingOrder (g : Nat → Int) (s s2 : List (BucketState K))
    (h : eqExceptBP g s s2) : spendingOrder s2 = spendingOrder s := by
  unfold spendingOrder
  rw [← h.1]
  have hkey : (fun (i : Nat) =>
        ((s2[i]?).map BucketState.spending_priority).getD 0)
      = (fun (i : Nat) =>
        ((s[i]?).map BucketState.spending_priority).getD 0) := by
    funext i
    rcases hi : s[i]? with _ | b
    · rw [eqExceptBP_none h hi]
    · rw [h.2 i b hi]
      rfl
  rw [hkey]

/-- Setting related values at the same position of related lists keeps them
related. -/
theorem eqExceptBP_set (g : Nat → Int) (s s2 : List (BucketState K))
    (h : eqExceptBP g s s2) (j : Nat) (bNew : BucketState K) :
    eqExceptBP g (s.set j bNew)
      (s2.set j { bNew with buying_priority := g j }) := by
  refine ⟨by simp [h.1], ?_⟩
  intro i c hc
  by_cases hji : j = i
  · subst hji
    rw [List.getElem?_set_self'] at hc
    rcases hj : s[j]? with _ | b
    · rw [hj] at hc; cases hc
    rw [hj] at hc
    have hcv := (Option.some_injective _ hc).symm
    subst hcv
    rw [List.getElem?_set_self', h.2 j b hj]
    rfl
  · rw [List.getElem?_set_ne hji] at hc
    rw [List.getElem?_set_ne hji]
    exact h.2 i c hc

/-- A Phase-1 visit maps related states to related states: no branch of the
visit reads `buying_priority`. -/
theorem eqExceptBP_phase1Step (e : K) (fxr : String → Option K)
    (ccy : String) (tax : K) (m : Nat) (nameIdx : String → Option Nat)
    (g : Nat → Int) (s s2 : List (BucketState K)) (h : eqExceptBP g s s2)
    (j : Nat) :
    eqExceptBP g (phase1Step e fxr ccy tax m nameIdx s j)
      (phase1Step e fxr ccy tax m nameIdx s2 j) := by
  unfold phase1Step
  rcases hj : s[j]? with _ | b
  · rw [eqExceptBP_none h hj]
    exact h
  rw [h.2 j b hj]
  dsimp only
  simp only [check_sell_trigger_set_bp, check_buy_trigger_set_bp]
  rw [eqExceptBP_runway g s s2 h e fxr ccy]
  by_cases h1 : b.frequency = "yearly" ∧ m % 12 ≠ 0
  · rw [if_pos h1, if_pos h1]; exact h
  rw [if_neg h1, if_neg h1]
  by_cases h2 : check_sell_trigger b = false
  · rw [if_pos h2, if_pos h2]; exact h
  rw [if_neg h2, if_neg h2]
  by_cases h3 : cash_runway_months s e fxr ccy
      < (b.required_runaway_months : WithTop K)
  · rw [if_pos h3, if_pos h3]; exact h
  rw [if_neg h3, if_neg h3]
  by_cases h4 : b.price - b.initial_price * (1 + b.target_growth_pct / 100) ≤ 0
  · rw [if_pos h4, if_pos h4]; exact h
  rw [if_neg h4, if_neg h4]
  by_cases h5 : b.amount * ((b.price
      - b.initial_price * (1 + b.target_growth_pct / 100)) / b.price) ≤ 0
  · rw [if_pos h5, if_pos h5]; exact h
  rw [if_neg h5, if_neg h5]
  have hset := eqExceptBP_set g s s2 h j ({ b with
    amount := b.amount - b.amount * ((b.price
      - b.initial_price * (1 + b.target_growth_pct / 100)) / b.price),
    amount_sold := b.amount_sold + b.amount * ((b.price
      - b.initial_price * (1 + b.target_growth_pct / 100)) / b.price),
    fees_paid := b.fees_paid + (compute_sell (b.amount * ((b.price
      - b.initial_price * (1 + b.target_growth_pct / 100)) / b.price))
      b.buy_sell_fee_pct).2 * get_fx_rate b.currency ccy fxr,
    tax_paid := b.tax_paid + max 0 (((compute_sell (b.amount * ((b.price
      - b.initial_price * (1 + b.target_growth_pct / 100)) / b.price))
      b.buy_sell_fee_pct).1
      - b.amount * ((b.price
        - b.initial_price * (1 + b.target_growth_pct / 100)) / b.price)
        * (b.initial_price / b.price)) * tax / 100)
      * get_fx_rate b.currency ccy fxr })
  dsimp only at hset
  rcases hsb : standbyIndex nameIdx b.standby_bucket with _ | k
  · exact hset
  dsimp only
  rcases hsk : (s.set j _)[k]? with _ | std
  · rw [eqExceptBP_none hset hsk]
    exact hset
  rw [hset.2 k std hsk]
  dsimp only
  simp only [check_buy_trigger_set_bp]
  by_cases h6 : check_buy_trigger std = true
  · rw [if_pos h6, if_pos h6]
    exact eqExceptBP_set g _ _ hset k _
  · rw [if_neg h6, if_neg h6]
    exact hset

/-- A Phase-2 cascade step maps related accumulators to related
accumulators with identical remaining expense: no branch reads
`buying_priority`. -/
theorem eqExceptBP_phase2Step (e : K) (fxr : String → Option K)
    (ccy : String) (tax : K) (g : Nat → Int) (s s2 : List (BucketState K))
    (r : K) (j : Nat) (h : eqExceptBP g s s2) :
    eqExceptBP g (phase2Step e fxr ccy tax (s, r) j).1
        (phase2Step e fxr ccy tax (s2, r) j).1 ∧
    (phase2Step e fxr ccy tax (s, r) j).2
      = (phase2Step e fxr ccy tax (s2, r) j).2 := by
  unfold phase2Step
  by_cases hr : r ≤ 0
  · rw [if_pos hr, if_pos hr]
    exact ⟨h, rfl⟩
  rw [if_neg hr, if_neg hr]
  dsimp only
  rcases hj : s[j]? with _ | b
  · rw [eqExceptBP_none h hj]
    exact ⟨h, rfl⟩
  rw [h.2 j b hj]
  dsimp only
  simp only [availableExpenses_set_bp]
  by_cases h1 : get_fx_rate b.currency ccy fxr ≤ 0
  · rw [if_pos h1, if_pos h1]; exact ⟨h, rfl⟩
  rw [if_neg h1, if_neg h1]
  by_cases h2 : availableExpenses b (get_fx_rate b.currency ccy fxr) e ≤ 0
  · rw [if_pos h2, if_pos h2]; exact ⟨h, rfl⟩
  rw [if_neg h2, if_neg h2]
  refine ⟨?_, rfl⟩
  dsimp only
  exact eqExceptBP_set g s s2 h j _

/-- Folding Phase-1 visits over a common visit order preserves the
relation. -/
theorem eqExceptBP_foldl_phase1Step (e : K) (fxr : String → Option K)
    (ccy : String) (tax : K) (m : Nat) (nameIdx : String → Option Nat)
    (g : Nat → Int) (l : List Nat) :
    ∀ s s2 : List (BucketState K), eqExceptBP g s s2 →
      eqExceptBP g (l.foldl (phase1Step e fxr ccy tax m nameIdx) s)
        (l.foldl (phase1Step e fxr ccy tax m nameIdx) s2) := by
  induction l with
  | nil => intro s s2 h; exact h
  | cons j rest ih =>
    intro s s2 h
    rw [List.foldl_cons, List.foldl_cons]
    exact ih _ _ (eqExceptBP_phase1Step e fxr ccy tax m nameIdx g s s2 h j)

/-- Folding Phase-2 steps over a common visit order preserves the relation
and the remaining expense. -/
theorem eqExceptBP_foldl_phase2Step (e : K) (fxr : String → Option K)
    (ccy : String) (tax : K) (g : Nat → Int) (l : List Nat) :
    ∀ (s s2 : List (BucketState K)) (r : K), eqExceptBP g s s2 →
      eqExceptBP g (l.foldl (phase2Step e fxr ccy tax) (s, r)).1
        (l.foldl (phase2Step e fxr ccy tax) (s2, r)).1 ∧
      (l.foldl (phase2Step e fxr ccy tax) (s, r)).2
        = (l.foldl (phase2Step e fxr ccy tax) (s2, r)).2 := by
  induction l with
  | nil => intro s s2 r h; exact ⟨h, rfl⟩
  | cons j rest ih =>
    intro s s2 r h
    rw [List.foldl_cons, List.foldl_cons]
    obtain ⟨hstep, hrem⟩ := eqExceptBP_phase2Step e fxr ccy tax g s s2 r j h
    have hpair1 : phase2Step e fxr ccy tax (s, r) j
        = ((phase2Step e fxr ccy tax (s, r) j).1,
          (phase2Step e fxr ccy tax (s, r) j).2) := rfl
    have hpair2 : phase2Step e fxr ccy tax (s2, r) j
        = ((phase2Step e fxr ccy tax (s2, r) j).1,
          (phase2Step e fxr ccy tax (s2, r) j).2) := rfl
    rw [hpair1, hpair2, ← hrem]
    exact ih _ _ _ hstep

/-- The counter reset maps related states to related states. -/
theorem eqExceptBP_reset (g : Nat → Int) (s s2 : List (BucketState K))
    (h : eqExceptBP g s s2) :
    eqExceptBP g (s.map resetMonth) (s2.map resetMonth) := by
  refine ⟨by simp [h.1], ?_⟩
  intro i b hb
  rw [List.getElem?_map] at hb
  rcases hi : s[i]? with _ | a
  · rw [hi] at hb; cases hb
  rw [hi] at hb
  have hba := (Option.some_injective _ hb).symm
  subst hba
  rw [List.getElem?_map, h.2 i a hi]
  rfl

/-- Claim C10.  `buying_priority` has no effect on the rebalancer: two calls
of `execute_rebalance` on bucket lists that differ only in their
`buying_priority` values produce bucket states that again differ only in
those `buying_priority` values, and identical covered totals.  Step-1 visits
the buckets in configuration-list order and never reads the field. -/
theorem buying_priority_no_effect (s s2 : List (BucketState K)) (e : K)
    (fxr : String → Option K) (cfg : SimConfig K) (m : Nat) (g : Nat → Int)
    (h : eqExceptBP g s s2) :
    eqExceptBP g (execute_rebalance s e fxr cfg m).1
        (execute_rebalance s2 e fxr cfg m).1 ∧
    (execute_rebalance s e fxr cfg m).2
      = (execute_rebalance s2 e fxr cfg m).2 := by
  unfold execute_rebalance
  dsimp only
  have hreset := eqExceptBP_reset g s s2 h
  have hnames : nameToIndex (s2.map resetMonth) = nameToIndex (s.map resetMonth) := by
    funext nm
    exact eqExceptBP_nameToIndex g _ _ hreset nm
  rw [hnames]
  have hp1 : eqExceptBP g
      (phase1 e fxr cfg.expenses_currency cfg.capital_gain_tax_pct m
        (nameToIndex (s.map resetMonth)) (s.map resetMonth))
      (phase1 e fxr cfg.expenses_currency cfg.capital_gain_tax_pct m
        (nameToIndex (s.map resetMonth)) (s2.map resetMonth)) := by
    unfold phase1
    rw [← hreset.1]
    exact eqExceptBP_foldl_phase1Step e fxr cfg.expenses_currency
      cfg.capital_gain_tax_pct m (nameToIndex (s.map resetMonth)) g
      (List.range (s.map resetMonth).length) _ _ hreset
  have horder := eqExceptBP_spendingOrder g _ _ hp1
  have hp2 := eqExceptBP_foldl_phase2Step e fxr cfg.expenses_currency
    cfg.capital_gain_tax_pct g (spendingOrder
      (phase1 e fxr cfg.expenses_currency cfg.capital_gain_tax_pct m
        (nameToIndex (s.map resetMonth)) (s.map resetMonth))) _ _ e hp1
  unfold phase2
  rw [horder]
  exact ⟨hp2.1, by rw [hp2.2]⟩

/-- The sample bucket with a different buying priority. -/
def bpVariantBucket : BucketState ℚ := { sampleBucket with buying_priority := 5 }

/-- Witness for `buying_priority_no_effect` at a concrete one-bucket pair. -/
theorem buying_priority_no_effect_witness :
    eqExceptBP (fun _ => 5) [sampleBucket] [bpVariantBucket] ∧
    (eqExceptBP (fun _ => 5)
        (execute_rebalance [sampleBucket] 1 (fun _ => none) sampleConfig 0).1
        (execute_rebalance [bpVariantBucket] 1 (fun _ => none) sampleConfig
          0).1 ∧
      (execute_rebalance [sampleBucket] 1 (fun _ => none) sampleConfig 0).2
        = (execute_rebalance [bpVariantBucket] 1 (fun _ => none) sampleConfig
            0).2) := by
  have hrel : eqExceptBP (fun _ => 5) [sampleBucket] [bpVariantBucket] := by
    refine ⟨rfl, ?_⟩
    intro i b hb
    rcases i with _ | i
    · have hb2 : sampleBucket = b := by simpa using hb
      subst hb2
      rfl
    · simp at hb
  exact ⟨hrel, buying_priority_no_effect [sampleBucket] [bpVariantBucket] 1
    (fun _ => none) sampleConfig 0 (fun _ => 5) hrel⟩

/-! Expense schedule builder, embedding of `engine/expenses.py` (claim C8). -/

/-- Absolute 0-based month index of an expense period:
`(start_year - 1) * 12 + (start_month - 1)`. -/
def expense_start_idx (p : ExpensePeriod K) : Int :=
  (p.start_year - 1) * 12 + (p.start_month - 1)

/-- Absolute 0-based month index of a one-time expense. -/
def one_time_idx (o : OneTimeExpense K) : Int :=
  (o.year - 1) * 12 + (o.month - 1)

/-- Embedding of `np.clip(x, lo, hi)`: clamp below first, then above. -/
def npClip (x lo hi : K) : K := min (max x lo) hi

/-- End of a period's active window: the start of the next period in sorted
order, or the horizon. -/
def periodEnds (sorted : List (ExpensePeriod K)) (n : Nat) : List Int :=
  (sorted.drop 1).map expense_start_idx ++ [(n : Int)]

/-- One range-write of the assignment loop: months in
`[max(0, start), min(n, end))` are assigned this period, overwriting earlier
assignments (the month argument is a natural number, so `max(0, ·)` is
implicit). -/
def assignWrite (n : Nat) (acc : Nat → Option (ExpensePeriod K))
    (pe : ExpensePeriod K × Int) : Nat → Option (ExpensePeriod K) :=
  fun m =>
    if expense_start_idx pe.1 ≤ (m : Int) ∧ (m : Int) < min (n : Int) pe.2
    then some pe.1 else acc m

/-- Embedding of the `period_for_month` table of
`compute_monthly_expenses`: sort the periods by start index (Python
`sorted` is stable), pair each with its window end, and perform the
range-writes in order. -/
def periodForMonth (ps : List (ExpensePeriod K)) (n : Nat) :
    Nat → Option (ExpensePeriod K) :=
  ((stableSortBy expense_start_idx ps).zip
      (periodEnds (stableSortBy expense_start_idx ps) n)).foldl
    (assignWrite n) (fun _ => none)

/-- Cumulative inflation factor: product of `1 + inflation` over months `0`
to `m`. -/
def cumInflation (infl : Nat → K) : Nat → K
  | 0 => 1 + infl 0
  | m + 1 => cumInflation infl m * (1 + infl (m + 1))

/-- Value of one month of the expense series: the active period's base
amount (its average for constant volatility, otherwise the clamped Gaussian
draw, modelled by the draw stream `draws`) times cumulative inflation, plus
all one-time expenses landing on this month, also inflation-adjusted.  The
Python loop adds each one-time amount separately; summing the amounts first
and multiplying once is the same number. -/
def monthExpense (ps : List (ExpensePeriod K)) (otes : List (OneTimeExpense K))
    (infl : Nat → K) (n : Nat) (draws : Nat → K) (m : Nat) : K :=
  (match periodForMonth ps n m with
   | none => 0
   | some p =>
     (if (get_expense_volatility_spec p.volatility : VolatilitySpec K).distribution
        = DistributionType.constant
      then p.amount_avg
      else npClip (draws m) p.amount_min p.amount_max) * cumInflation infl m)
  + ((otes.filter fun o => one_time_idx o = (m : Int)).map
      (fun o => o.amount)).sum * cumInflation infl m

/-- Embedding of `compute_monthly_expenses` in `engine/expenses.py`. -/
def compute_monthly_expenses (ps : List (ExpensePeriod K))
    (otes : List (OneTimeExpense K)) (infl : Nat → K) (n : Nat)
    (draws : Nat → K) : List K :=
  (List.range n).map (monthExpense ps otes infl n draws)

theorem mem_stableInsertBy {A : Type} (key : A → Int) (x a : A) :
    ∀ l : List A, a ∈ stableInsertBy key x l ↔ a = x ∨ a ∈ l := by
  intro l
  induction l with
  | nil => simp [stableInsertBy]
  | cons y ys ih =>
    unfold stableInsertBy
    by_cases h : key y < key x
    · rw [if_pos h]
      simp only [List.mem_cons, ih]
      tauto
    · rw [if_neg h]
      simp only [List.mem_cons]

theorem mem_stableSortBy {A : Type} (key : A → Int) (a : A) :
    ∀ l : List A, a ∈ stableSortBy key l ↔ a ∈ l := by
  intro l
  induction l with
  | nil => simp [stableSortBy]
  | cons y ys ih =>
    unfold stableSortBy
    rw [mem_stableInsertBy, ih, List.mem_cons]

theorem pairwise_stableInsertBy {A : Type} (key : A → Int) (x : A)
    (l : List A) (h : l.Pairwise (fun a b => key a ≤ key b)) :
    (stableInsertBy key x l).Pairwise (fun a b => key a ≤ key b) := by
  induction l with
  | nil => simp [stableInsertBy]
  | cons y ys ih =>
    rcases List.pairwise_cons.mp h with ⟨hy, hys⟩
    unfold stableInsertBy
    by_cases hlt : key y < key x
    · rw [if_pos hlt]
      refine List.Pairwise.cons ?_ (ih hys)
      intro b hb
      rcases (mem_stableInsertBy key x b ys).mp hb with hbx | hb2
      · exact hbx ▸ hlt.le
      · exact hy b hb2
    · rw [if_neg hlt]
      refine List.Pairwise.cons ?_ h
      intro b hb
      rcases List.mem_cons.mp hb with hby | hb2
      · exact hby ▸ le_of_not_lt hlt
      · exact le_trans (le_of_not_lt hlt) (hy b hb2)

theorem pairwise_stableSortBy {A : Type} (key : A → Int) :
    ∀ l : List A, (stableSortBy key l).Pairwise (fun a b => key a ≤ key b) := by
  intro l
  induction l with
  | nil => simp [stableSortBy]
  | cons y ys ih =>
    unfold stableSortBy
    exact pairwise_stableInsertBy key y (stableSortBy key ys) ih

/-- Window end of the first listed period: the start of the next period, or
the horizon when there is none. -/
def headStart (n : Nat) : List (ExpensePeriod K) → Int
  | [] => (n : Int)
  | q :: _ => expense_start_idx q

/-- Recursive view of the overwriting range-write loop: later periods in the
sorted list win, and a period covers exactly the months of
`[its start, min(horizon, next start))`. -/
def recAssign (n m : Nat) : List (ExpensePeriod K) → Option (ExpensePeriod K)
  | [] => none
  | p :: rest =>
    match recAssign n m rest with
    | some x => some x
    | none =>
      if expense_start_idx p ≤ (m : Int) ∧
          (m : Int) < min (n : Int) (headStart n rest)
      then some p else none

theorem zip_periodEnds_cons (n : Nat) (p : ExpensePeriod K)
    (rest : List (ExpensePeriod K)) :
    (p :: rest).zip (periodEnds (p :: rest) n)
      = (p, headStart n rest) :: rest.zip (periodEnds rest n) := by
  cases rest <;> rfl

theorem foldl_assignWrite_eq_recAssign (n m : Nat) :
    ∀ (L : List (ExpensePeriod K)) (init : Nat → Option (ExpensePeriod K)),
      (L.zip (periodEnds L n)).foldl (assignWrite n) init m
        = match recAssign n m L with
          | some x => some x
          | none => init m := by
  intro L
  induction L with
  | nil => intro init; rfl
  | cons p rest ih =>
    intro init
    rw [zip_periodEnds_cons, List.foldl_cons, ih]
    rcases h : recAssign n m rest with _ | x
    · unfold recAssign
      rw [h]
      by_cases hc : expense_start_idx p ≤ (m : Int) ∧
          (m : Int) < min (n : Int) (headStart n rest)
      · rw [if_pos hc]
        show (if expense_start_idx p ≤ (m : Int) ∧
            (m : Int) < min (n : Int) (headStart n rest)
          then some p else init m) = some p
        rw [if_pos hc]
      · rw [if_neg hc]
        show (if expense_start_idx p ≤ (m : Int) ∧
            (m : Int) < min (n : Int) (headStart n rest)
          then some p else init m) = init m
        rw [if_neg hc]
    · unfold recAssign
      rw [h]

theorem periodForMonth_eq_recAssign (ps : List (ExpensePeriod K)) (n m : Nat) :
    periodForMonth ps n m
      = recAssign n m (stableSortBy expense_start_idx ps) := by
  unfold periodForMonth
  rw [foldl_assignWrite_eq_recAssign]
  rcases recAssign n m (stableSortBy expense_start_idx ps) <;> rfl

theorem recAssign_isSome (n m : Nat) (hmn : m < n) :
    ∀ L : List (ExpensePeriod K),
      (∃ q ∈ L, expense_start_idx q ≤ (m : Int)) →
      (recAssign n m L).isSome := by
  intro L
  induction L with
  | nil => rintro ⟨q, hq, _⟩; cases hq
  | cons p rest ih =>
    rintro ⟨q, hq, hqle⟩
    unfold recAssign
    rcases h : recAssign n m rest with _ | x
    · rcases List.mem_cons.mp hq with hqp | hqrest
      · subst hqp
        have hcond : expense_start_idx q ≤ (m : Int) ∧
            (m : Int) < min (n : Int) (headStart n rest) := by
          refine ⟨hqle, lt_min (by exact_mod_cast hmn) ?_⟩
          cases rest with
          | nil =>
            simp only [headStart]
            exact_mod_cast hmn
          | cons q0 t =>
            by_contra hle
            push_neg at hle
            have := ih ⟨q0, List.mem_cons_self q0 t, hle⟩
            rw [h] at this
            cases this
        rw [if_pos hcond]
        rfl
      · have := ih ⟨q, hqrest, hqle⟩
        rw [h] at this
        cases this
    · rfl

theorem recAssign_some_char (n m : Nat) :
    ∀ L : List (ExpensePeriod K),
      L.Pairwise (fun a b => expense_start_idx a ≤ expense_start_idx b) →
      ∀ p, recAssign n m L = some p →
        p ∈ L ∧ expense_start_idx p ≤ (m : Int) ∧ (m : Int) < (n : Int) ∧
        ∀ q ∈ L, expense_start_idx q ≤ (m : Int) →
          expense_start_idx q ≤ expense_start_idx p := by
  intro L
  induction L with
  | nil => intro _ p hp; cases hp
  | cons p0 rest ih =>
    intro hpw p hp
    rcases List.pairwise_cons.mp hpw with ⟨h0, hrest⟩
    unfold recAssign at hp
    rcases h : recAssign n m rest with _ | x
    · rw [h] at hp
      dsimp only at hp
      by_cases hc : expense_start_idx p0 ≤ (m : Int) ∧
          (m : Int) < min (n : Int) (headStart n rest)
      · rw [if_pos hc] at hp
        have hpv := Option.some_injective _ hp
        subst hpv
        have hmn : (m : Int) < (n : Int) := lt_of_lt_of_le hc.2 (min_le_left _ _)
        refine ⟨List.mem_cons_self p0 rest, hc.1, hmn, ?_⟩
        intro q hq hqle
        rcases List.mem_cons.mp hq with hqp | hqrest
        · rw [hqp]
        · exfalso
          have hmn2 : m < n := by exact_mod_cast hmn
          have := recAssign_isSome n m hmn2 rest ⟨q, hqrest, hqle⟩
          rw [h] at this
          cases this
      · rw [if_neg hc] at hp
        cases hp
    · rw [h] at hp
      dsimp only at hp
      have hpx : x = p := Option.some_injective _ hp
      rw [← hpx]
      obtain ⟨hmem, hle, hmn, hmax⟩ := ih hrest x h
      refine ⟨List.mem_cons_of_mem p0 hmem, hle, hmn, ?_⟩
      intro q hq hqle
      rcases List.mem_cons.mp hq with hqp | hqrest
      · rw [hqp]
        exact h0 x hmem
      · exact hmax q hqrest hqle

theorem cumInflation_zero :
    ∀ m : Nat, cumInflation (fun _ => (0 : K)) m = 1 := by
  intro m
  induction m with
  | zero => simp [cumInflation]
  | succ k ih => simp [cumInflation, ih]

/-- Claim C8.  The expense schedule assigns each month the latest period
whose start index is at most that month (and some period is assigned
whenever one has started); months before every period and without a one-time
expense cost nothing; a single constant period from month 0 under zero
inflation yields its average every month; a second period's amount replaces
the first from its start index onward; and a one-time expense changes only
its own month. -/
theorem compute_monthly_expenses_spec :
    (∀ (ps : List (ExpensePeriod K)) (n m : Nat) (p : ExpensePeriod K),
      periodForMonth ps n m = some p →
        p ∈ ps ∧ expense_start_idx p ≤ (m : Int) ∧
        ∀ q ∈ ps, expense_start_idx q ≤ (m : Int) →
          expense_start_idx q ≤ expense_start_idx p) ∧
    (∀ (ps : List (ExpensePeriod K)) (n m : Nat), m < n →
      (∃ q ∈ ps, expense_start_idx q ≤ (m : Int)) →
      (periodForMonth ps n m).isSome) ∧
    (∀ (ps : List (ExpensePeriod K)) (otes : List (OneTimeExpense K))
        (infl : Nat → K) (n : Nat) (draws : Nat → K) (m : Nat),
      (∀ q ∈ ps, ¬ expense_start_idx q ≤ (m : Int)) →
      (∀ o ∈ otes, one_time_idx o ≠ (m : Int)) →
      monthExpense ps otes infl n draws m = 0) ∧
    (∀ (p : ExpensePeriod K) (n : Nat) (draws : Nat → K) (m : Nat), m < n →
      expense_start_idx p = 0 →
      (get_expense_volatility_spec p.volatility : VolatilitySpec K).distribution
        = DistributionType.constant →
      (compute_monthly_expenses [p] [] (fun _ => 0) n draws)[m]?
        = some p.amount_avg) ∧
    (∀ (p1 p2 : ExpensePeriod K) (n : Nat) (draws : Nat → K) (m : Nat),
      m < n →
      expense_start_idx p1 = 0 → 0 ≤ expense_start_idx p2 →
      (get_expense_volatility_spec p1.volatility : VolatilitySpec K).distribution
        = DistributionType.constant →
      (get_expense_volatility_spec p2.volatility : VolatilitySpec K).distribution
        = DistributionType.constant →
      (compute_monthly_expenses [p1, p2] [] (fun _ => 0) n draws)[m]?
        = some (if (m : Int) < expense_start_idx p2 then p1.amount_avg
            else p2.amount_avg)) ∧
    (∀ (ps : List (ExpensePeriod K)) (otes : List (OneTimeExpense K))
        (o : OneTimeExpense K) (infl : Nat → K) (n : Nat) (draws : Nat → K)
        (m : Nat),
      (m : Int) ≠ one_time_idx o →
      monthExpense ps (o :: otes) infl n draws m
        = monthExpense ps otes infl n draws m) := by
  have hchar : ∀ (ps : List (ExpensePeriod K)) (n m : Nat)
      (p : ExpensePeriod K), periodForMonth ps n m = some p →
      p ∈ ps ∧ expense_start_idx p ≤ (m : Int) ∧
      ∀ q ∈ ps, expense_start_idx q ≤ (m : Int) →
        expense_start_idx q ≤ expense_start_idx p := by
    intro ps n m p hp
    rw [periodForMonth_eq_recAssign] at hp
    obtain ⟨hmem, hle, _, hmax⟩ := recAssign_some_char n m
      (stableSortBy expense_start_idx ps)
      (pairwise_stableSortBy expense_start_idx ps) p hp
    refine ⟨(mem_stableSortBy expense_start_idx p ps).mp hmem, hle, ?_⟩
    intro q hq hqle
    exact hmax q ((mem_stableSortBy expense_start_idx q ps).mpr hq) hqle
  refine ⟨hchar, ?_, ?_, ?_, ?_, ?_⟩
  · intro ps n m hmn ⟨q, hq, hqle⟩
    rw [periodForMonth_eq_recAssign]
    exact recAssign_isSome n m hmn (stableSortBy expense_start_idx ps)
      ⟨q, (mem_stableSortBy expense_start_idx q ps).mpr hq, hqle⟩
  · intro ps otes infl n draws m hps hotes
    unfold monthExpense
    rcases hpm : periodForMonth ps n m with _ | p
    · have hfil : otes.filter (fun o => one_time_idx o = (m : Int)) = [] := by
        apply List.filter_eq_nil.mpr
        intro o ho
        simpa using hotes o ho
      rw [hfil]
      simp
    · obtain ⟨hmem, hle, _⟩ := hchar ps n m p hpm
      exact absurd hle (hps p hmem)
  · intro p n draws m hmn hstart hconst
    unfold compute_monthly_expenses
    rw [List.getElem?_map, List.getElem?_range hmn]
    simp only [Option.map_some']
    congr 1
    unfold monthExpense
    have hcond : expense_start_idx p ≤ (m : Int) ∧
        (m : Int) < min (n : Int)
          (headStart n ([] : List (ExpensePeriod K))) := by
      refine ⟨by rw [hstart]; exact_mod_cast Nat.zero_le m, ?_⟩
      simp only [headStart]
      rw [min_self]
      exact_mod_cast hmn
    have hpm : periodForMonth [p] n m = some p := by
      rw [periodForMonth_eq_recAssign]
      show (if expense_start_idx p ≤ (m : Int) ∧
          (m : Int) < min (n : Int)
            (headStart n ([] : List (ExpensePeriod K)))
        then some p else none) = some p
      rw [if_pos hcond]
    rw [hpm]
    dsimp only
    rw [if_pos hconst]
    simp [cumInflation_zero]
  · intro p1 p2 n draws m hmn h1 h2 hc1 hc2
    unfold compute_monthly_expenses
    rw [List.getElem?_map, List.getElem?_range hmn]
    simp only [Option.map_some']
    congr 1
    unfold monthExpense
    have hsort : stableSortBy expense_start_idx [p1, p2] = [p1, p2] := by
      show stableInsertBy expense_start_idx p1 [p2] = [p1, p2]
      unfold stableInsertBy
      rw [h1, if_neg (not_lt.mpr h2)]
    have hn2 : (m : Int) < min (n : Int)
        (headStart n ([] : List (ExpensePeriod K))) := by
      simp only [headStart]
      rw [min_self]
      exact_mod_cast hmn
    have htail : recAssign n m [p2]
        = if expense_start_idx p2 ≤ (m : Int) then some p2 else none := by
      show (if expense_start_idx p2 ≤ (m : Int) ∧
          (m : Int) < min (n : Int)
            (headStart n ([] : List (ExpensePeriod K)))
        then some p2 else none) = _
      by_cases hs : expense_start_idx p2 ≤ (m : Int)
      · rw [if_pos ⟨hs, hn2⟩, if_pos hs]
      · rw [if_neg (fun hcc => hs hcc.1), if_neg hs]
    have hpm : periodForMonth [p1, p2] n m
        = if (m : Int) < expense_start_idx p2 then some p1 else some p2 := by
      rw [periodForMonth_eq_recAssign, hsort]
      show (match recAssign n m [p2] with
        | some x => some x
        | none =>
          if expense_start_idx p1 ≤ (m : Int) ∧
              (m : Int) < min (n : Int) (headStart n [p2])
          then some p1 else none) = _
      rw [htail]
      by_cases hs : expense_start_idx p2 ≤ (m : Int)
      · rw [if_pos hs]
        dsimp only
        rw [if_neg (not_lt.mpr hs)]
      · rw [if_neg hs]
        push_neg at hs
        dsimp only
        have hcond1 : expense_start_idx p1 ≤ (m : Int) ∧
            (m : Int) < min (n : Int) (headStart n [p2]) := by
          refine ⟨by rw [h1]; exact_mod_cast Nat.zero_le m, ?_⟩
          simp only [headStart]
          exact lt_min (by exact_mod_cast hmn) hs
        rw [if_pos hcond1, if_pos hs]
    rw [hpm]
    by_cases hs : (m : Int) < expense_start_idx p2
    · rw [if_pos hs, if_pos hs]
      dsimp only
      rw [if_pos hc1]
      simp [cumInflation_zero]
    · rw [if_neg hs, if_neg hs]
      dsimp only
      rw [if_pos hc2]
      simp [cumInflation_zero]
  · intro ps otes o infl n draws m hm
    unfold monthExpense
    rw [List.filter_cons_of_neg]
    simp only [decide_eq_true_eq]
    exact fun hc => hm hc.symm

/-- A constant expense period of 2000 per month starting at month 0. -/
def constPeriod : ExpensePeriod ℚ := ⟨1, 1, 2000, 2000, 2000, .constant⟩

/-- Witness for `compute_monthly_expenses_spec`: the single-constant-period
part applied at a concrete period and month. -/
theorem compute_monthly_expenses_spec_witness :
    (1 : Nat) < 3 ∧ expense_start_idx (constPeriod : ExpensePeriod ℚ) = 0 ∧
    (get_expense_volatility_spec constPeriod.volatility
      : VolatilitySpec ℚ).distribution = DistributionType.constant ∧
    (compute_monthly_expenses [constPeriod] [] (fun _ => 0) 3
      (fun _ => 0))[1]? = some constPeriod.amount_avg :=
  ⟨by decide, by decide, rfl,
    compute_monthly_expenses_spec.2.2.2.1 constPeriod 3 (fun _ => 0) 1
      (by decide) (by decide) rfl⟩

/-! Stochastic generators, embeddings of `engine/currency.py`,
`engine/inflation.py` and `engine/bucket.py` (claim C6).  The seeded Gaussian
draws are modelled as an arbitrary real-valued stream `shocks`, so the
theorems quantify over every seed and RNG state. -/

/-- One step of the mean-reverting log-space FX walk of `simulate_fx_rates`:
reversion speed 0.05 toward `log avg`, Gaussian shock, exponentiate, clamp
to `[min_price, max_price]`. -/
noncomputable def fxStep (cs : CurrencySettings ℝ) (current shock : ℝ) : ℝ :=
  npClip (Real.exp (Real.log current
      + 5 / 100 * (Real.log cs.avg_price - Real.log current) + shock))
    cs.min_price cs.max_price

/-- The FX value after month `i` (starting from the initial price). -/
noncomputable def fxSeries (cs : CurrencySettings ℝ) (shocks : ℕ → ℝ) :
    ℕ → ℝ
  | 0 => fxStep cs cs.initial_price (shocks 0)
  | i + 1 => fxStep cs (fxSeries cs shocks i) (shocks (i + 1))

/-- Embedding of `simulate_fx_rates` in `engine/currency.py`: the constant
profile pins the series at the average price, otherwise the mean-reverting
clamped walk runs for `n` months. -/
noncomputable def simulate_fx_rates (cs : CurrencySettings ℝ) (n : ℕ)
    (shocks : ℕ → ℝ) : List ℝ :=
  if (get_volatility_spec cs.volatility : VolatilitySpec ℝ).distribution
      = DistributionType.constant
  then List.replicate n cs.avg_price
  else (List.range n).map (fxSeries cs shocks)

/-- One step of the mean-reverting inflation walk of
`simulate_monthly_inflation`: reversion speed 0.1 toward the average monthly
fraction, shock, clamp to the monthly bounds. -/
def inflStep (avg lo hi current shock : K) : K :=
  npClip (current + 1 / 10 * (avg - current) + shock) lo hi

/-- The monthly inflation value after month `i` (starting from the
average). -/
def inflSeries (avg lo hi : K) (shocks : ℕ → K) : ℕ → K
  | 0 => inflStep avg lo hi avg (shocks 0)
  | i + 1 => inflStep avg lo hi (inflSeries avg lo hi shocks i) (shocks (i + 1))

/-- Embedding of `simulate_monthly_inflation` in `engine/inflation.py`:
annual percentages become monthly fractions (`pct / 100 / 12`), the constant
profile pins the series at the average, otherwise the mean-reverting clamped
walk runs; the Gaussian draw with standard deviation `sigma / 12` is
the stream value. -/
def simulate_monthly_inflation (settings : InflationSettings K) (n : ℕ)
    (shocks : ℕ → K) : List K :=
  if (get_inflation_volatility_spec settings.volatility
      : VolatilitySpec K).distribution = DistributionType.constant
  then List.replicate n (settings.avg_pct / 100 / 12)
  else (List.range n).map
    (inflSeries (settings.avg_pct / 100 / 12) (settings.min_pct / 100 / 12)
      (settings.max_pct / 100 / 12) shocks)

/-- One step of the bucket price walk of `simulate_bucket_prices`: the drawn
log-return is clamped to the derived monthly log bounds with 0.01 slack, the
price is compounded, then floored at 0.001. -/
noncomputable def bucketStep (lo hi current shock : ℝ) : ℝ :=
  max (current * Real.exp (npClip shock (lo - 1 / 100) (hi + 1 / 100)))
    (1 / 1000)

/-- The bucket price after month `i` (starting from the initial price). -/
noncomputable def bucketSeries (initial lo hi : ℝ) (shocks : ℕ → ℝ) :
    ℕ → ℝ
  | 0 => bucketStep lo hi initial (shocks 0)
  | i + 1 => bucketStep lo hi (bucketSeries initial lo hi shocks i)
      (shocks (i + 1))

/-- Embedding of `simulate_bucket_prices` in `engine/bucket.py`: the
constant profile compounds the fixed monthly growth
`(1 + avg/100)^(1/12) − 1`, otherwise the clamped log-return walk runs with
bounds `log(1 + min/100)/12` and `log(1 + max/100)/12`. -/
noncomputable def simulate_bucket_prices (bucket : InvestmentBucket ℝ)
    (n : ℕ) (shocks : ℕ → ℝ) : List ℝ :=
  if (get_volatility_spec bucket.volatility : VolatilitySpec ℝ).distribution
      = DistributionType.constant
  then
    (List.range n).map fun i =>
      bucket.initial_price
        * (1 + ((1 + bucket.growth_avg_pct / 100) ^ ((1 : ℝ) / 12) - 1))
          ^ (i + 1)
  else
    (List.range n).map
      (bucketSeries bucket.initial_price
        (Real.log (1 + bucket.growth_min_pct / 100) / 12)
        (Real.log (1 + bucket.growth_max_pct / 100) / 12) shocks)

theorem npClip_mem (x lo hi : K) (h : lo ≤ hi) :
    lo ≤ npClip x lo hi ∧ npClip x lo hi ≤ hi :=
  ⟨le_min (le_max_right x lo) h, min_le_right _ _⟩

/-- Claim C6, amended.  For every horizon and every shock stream (hence
every seed), under the section-3 invariants: FX values stay within
`[min_price, max_price]`, monthly inflation stays within
`[min_pct/1200, max_pct/1200]`, and bucket prices stay strictly positive —
the last additionally requires `growth_avg% > −100`, without which the
constant branch multiplies by `(1 + avg/100)^(1/12) = 0`; see the
counterexample. -/
theorem generators_respect_bounds (cs : CurrencySettings ℝ)
    (ist : InflationSettings ℝ) (bucket : InvestmentBucket ℝ) (n : ℕ)
    (shocks shocks2 shocks3 : ℕ → ℝ)
    (hc1 : cs.min_price ≤ cs.avg_price) (hc2 : cs.avg_price ≤ cs.max_price)
    (hi1 : ist.min_pct ≤ ist.avg_pct) (hi2 : ist.avg_pct ≤ ist.max_pct)
    (hb1 : 0 < bucket.initial_price) (hb2 : -100 < bucket.growth_avg_pct) :
    (∀ x ∈ simulate_fx_rates cs n shocks,
      cs.min_price ≤ x ∧ x ≤ cs.max_price) ∧
    (∀ x ∈ simulate_monthly_inflation ist n shocks2,
      ist.min_pct / 1200 ≤ x ∧ x ≤ ist.max_pct / 1200) ∧
    (∀ x ∈ simulate_bucket_prices bucket n shocks3, 0 < x) := by
  have h1200 : ∀ a : ℝ, a / 100 / 12 = a / 1200 := by intro a; ring
  refine ⟨?_, ?_, ?_⟩
  · intro x hx
    unfold simulate_fx_rates at hx
    split at hx
    · rw [List.eq_of_mem_replicate hx]
      exact ⟨hc1, hc2⟩
    · obtain ⟨i, _, rfl⟩ := List.mem_map.mp hx
      have hstep : ∀ j : ℕ, cs.min_price ≤ fxSeries cs shocks j ∧
          fxSeries cs shocks j ≤ cs.max_price := by
        intro j
        cases j with
        | zero => exact npClip_mem _ _ _ (hc1.trans hc2)
        | succ k => exact npClip_mem _ _ _ (hc1.trans hc2)
      exact hstep i
  · intro x hx
    unfold simulate_monthly_inflation at hx
    split at hx
    · rw [List.eq_of_mem_replicate hx, h1200]
      constructor <;> [linarith; linarith]
    · obtain ⟨i, _, rfl⟩ := List.mem_map.mp hx
      have hlohi : ist.min_pct / 100 / 12 ≤ ist.max_pct / 100 / 12 := by
        rw [h1200, h1200]
        linarith
      have hstep : ∀ j : ℕ,
          ist.min_pct / 100 / 12
            ≤ inflSeries (ist.avg_pct / 100 / 12) (ist.min_pct / 100 / 12)
                (ist.max_pct / 100 / 12) shocks2 j ∧
          inflSeries (ist.avg_pct / 100 / 12) (ist.min_pct / 100 / 12)
              (ist.max_pct / 100 / 12) shocks2 j
            ≤ ist.max_pct / 100 / 12 := by
        intro j
        cases j with
        | zero => exact npClip_mem _ _ _ hlohi
        | succ k => exact npClip_mem _ _ _ hlohi
      obtain ⟨hl, hr⟩ := hstep i
      exact ⟨by linarith [hl, h1200 ist.min_pct],
        by linarith [hr, h1200 ist.max_pct]⟩
  · intro x hx
    unfold simulate_bucket_prices at hx
    split at hx
    · obtain ⟨i, _, rfl⟩ := List.mem_map.mp hx
      have hbase : (0 : ℝ) < 1 + bucket.growth_avg_pct / 100 := by linarith
      have hr := Real.rpow_pos_of_pos hbase ((1 : ℝ) / 12)
      have hone : (1 : ℝ)
          + ((1 + bucket.growth_avg_pct / 100) ^ ((1 : ℝ) / 12) - 1)
          = (1 + bucket.growth_avg_pct / 100) ^ ((1 : ℝ) / 12) := by ring
      rw [hone]
      exact mul_pos hb1 (pow_pos hr (i + 1))
    · obtain ⟨i, _, rfl⟩ := List.mem_map.mp hx
      have hstep : ∀ j : ℕ, (0 : ℝ) < bucketSeries bucket.initial_price
          (Real.log (1 + bucket.growth_min_pct / 100) / 12)
          (Real.log (1 + bucket.growth_max_pct / 100) / 12) shocks3 j := by
        intro j
        have hfloor : (0 : ℝ) < 1 / 1000 := by norm_num
        cases j with
        | zero => exact lt_of_lt_of_le hfloor (le_max_right _ _)
        | succ k => exact lt_of_lt_of_le hfloor (le_max_right _ _)
      exact hstep i

/-- Rebalancing parameters matching the Python defaults. -/
noncomputable def sampleRebParams : RebalancingParams ℝ := ⟨"monthly", 3/2, none, 5, 0, 6, 0, 0⟩

/-- A constant-volatility bucket whose average growth is exactly −100
percent: the section-3 invariants (min ≤ avg ≤ max, positive initial price)
hold, yet its constant-branch price is zero. -/
noncomputable def zeroGrowthBucket : InvestmentBucket ℝ :=
  ⟨"Z", "USD", 1, 1, -100, 0, -100, .constant, 0, 7, sampleRebParams⟩

/-- Claim C6, counterexample.  With `growth_avg_pct = −100` (allowed by the
section-3 invariants) the constant branch computes
`(1 + (−100)/100)^(1/12) = 0`, so the first simulated price is `0`, not
strictly positive — exactly what the Python code computes
(`0.0 ** (1/12) == 0.0`). -/
theorem bucket_price_positive_claim_false :
    (zeroGrowthBucket.growth_min_pct ≤ zeroGrowthBucket.growth_avg_pct ∧
     zeroGrowthBucket.growth_avg_pct ≤ zeroGrowthBucket.growth_max_pct ∧
     0 < zeroGrowthBucket.initial_price) ∧
    ¬ (∀ x ∈ simulate_bucket_prices zeroGrowthBucket 1 (fun _ => 0),
        0 < x) := by
  have hcompute : simulate_bucket_prices zeroGrowthBucket 1 (fun _ => 0)
      = [0] := by
    unfold simulate_bucket_prices
    rw [if_pos (show (get_volatility_spec zeroGrowthBucket.volatility
      : VolatilitySpec ℝ).distribution = DistributionType.constant from rfl)]
    rw [show List.range 1 = [0] from rfl, List.map_cons, List.map_nil]
    have hzero : (1 : ℝ) + zeroGrowthBucket.growth_avg_pct / 100 = 0 := by
      norm_num [zeroGrowthBucket]
    rw [hzero, Real.zero_rpow (by norm_num : (1 : ℝ) / 12 ≠ 0)]
    norm_num
  constructor
  · norm_num [zeroGrowthBucket]
  · intro hall
    have h0 := hall 0 (by rw [hcompute]; simp)
    exact lt_irrefl 0 h0

/-- Concrete constant-volatility settings for the bounds witness. -/
def sampleCurrency : CurrencySettings ℝ := ⟨"EUR", 1, 1, 3, 2, .constant, 0⟩

def sampleInflationSettings : InflationSettings ℝ := ⟨1, 5, 2, .constant⟩

noncomputable def sampleGrowthBucket : InvestmentBucket ℝ :=
  ⟨"G", "USD", 1, 0, 0, 0, 0, .constant, 0, 7, sampleRebParams⟩

/-- Witness for `generators_respect_bounds` at concrete constant-volatility
settings. -/
theorem generators_respect_bounds_witness :
    (sampleCurrency.min_price ≤ sampleCurrency.avg_price ∧
     sampleCurrency.avg_price ≤ sampleCurrency.max_price ∧
     sampleInflationSettings.min_pct ≤ sampleInflationSettings.avg_pct ∧
     sampleInflationSettings.avg_pct ≤ sampleInflationSettings.max_pct ∧
     0 < sampleGrowthBucket.initial_price ∧
     -100 < sampleGrowthBucket.growth_avg_pct) ∧
    ((∀ x ∈ simulate_fx_rates sampleCurrency 12 (fun _ => 0),
      sampleCurrency.min_price ≤ x ∧ x ≤ sampleCurrency.max_price) ∧
    (∀ x ∈ simulate_monthly_inflation sampleInflationSettings 12 (fun _ => 0),
      sampleInflationSettings.min_pct / 1200 ≤ x ∧
        x ≤ sampleInflationSettings.max_pct / 1200) ∧
    (∀ x ∈ simulate_bucket_prices sampleGrowthBucket 12 (fun _ => 0),
      0 < x)) :=
  ⟨⟨by norm_num [sampleCurrency], by norm_num [sampleCurrency],
    by norm_num [sampleInflationSettings], by norm_num [sampleInflationSettings],
    by norm_num [sampleGrowthBucket], by norm_num [sampleGrowthBucket]⟩,
   generators_respect_bounds sampleCurrency sampleInflationSettings
     sampleGrowthBucket 12 (fun _ => 0) (fun _ => 0) (fun _ => 0)
     (by norm_num [sampleCurrency]) (by norm_num [sampleCurrency])
     (by norm_num [sampleInflationSettings])
     (by norm_num [sampleInflationSettings])
     (by norm_num [sampleGrowthBucket]) (by norm_num [sampleGrowthBucket])⟩

/-! ### `engine/simulator.py` and `engine/montecarlo.py`

`run_simulation` threads a NumPy `Generator` through every stochastic
component in turn.  Each draw the Python code makes is modelled by one value
of a dedicated stream, so a run is parametrised by the streams below; every
theorem quantifies over all streams and therefore covers the draws any seed
produces. -/

/-- The randomness consumed by one simulation: an inflation shock per month,
an FX shock per currency (by position in `config.currencies`) per month, a
price shock per bucket (by position in `config.buckets`) per month, and an
expense draw per month. -/
structure Rng where
  inflation : ℕ → ℝ
  fx : ℕ → ℕ → ℝ
  bucket : ℕ → ℕ → ℝ
  expense : ℕ → ℝ

/-- Embedding of `_init_bucket_state` in `engine/simulator.py`: build a
`BucketState` from the bucket model, with the monthly counters at their
dataclass defaults `0.0`. -/
def init_bucket_state (bucket : InvestmentBucket K) (price : K) :
    BucketState K :=
  ⟨bucket.name, bucket.currency, price, bucket.initial_amount,
    bucket.initial_price, bucket.target_growth_pct, bucket.buy_sell_fee_pct,
    bucket.rebalancing.sell_trigger, bucket.rebalancing.standby_bucket,
    bucket.rebalancing.buy_trigger, bucket.rebalancing.buying_priority,
    bucket.rebalancing.required_runaway_months,
    bucket.rebalancing.spending_priority, bucket.rebalancing.cash_floor_months,
    bucket.rebalancing.frequency, 0, 0, 0, 0, 0⟩

/-- A Python `dict` built by inserting key/value pairs in list order: a
lookup returns the value of the LAST pair with the key (later insertions
overwrite earlier ones). -/
def dictLookup {B : Type} (pairs : List (String × B)) (c : String) :
    Option B :=
  (pairs.reverse.find? (fun pr => decide (pr.1 = c))).map (fun pr => pr.2)

/-- The `fx_price_series` dict of `run_simulation`: one simulated series per
entry of `config.currencies`, keyed by currency code. -/
noncomputable def fxSeriesTable (cfg : SimConfig ℝ) (n : ℕ) (rng : Rng) :
    List (String × List ℝ) :=
  cfg.currencies.enum.map
    (fun ic => (ic.2.code, simulate_fx_rates ic.2 n (rng.fx ic.1)))

/-- The `bucket_price_series` dict of `run_simulation`: one simulated series
per entry of `config.buckets`, keyed by bucket name. -/
noncomputable def bucketSeriesTable (cfg : SimConfig ℝ) (n : ℕ) (rng : Rng) :
    List (String × List ℝ) :=
  cfg.buckets.enum.map
    (fun ib => (ib.2.name, simulate_bucket_prices ib.2 n (rng.bucket ib.1)))

/-- The per-bucket columns of one DataFrame row (`{prefix}_price`,
`{prefix}_price_exp`, ... in `run_simulation`). -/
structure BucketRow where
  name : String
  price : ℝ
  price_exp : ℝ
  amount : ℝ
  amount_exp : ℝ
  sold : ℝ
  sold_exp : ℝ
  bought : ℝ
  fees : ℝ
  tax : ℝ
  net_spent : ℝ

/-- One row of the DataFrame returned by `run_simulation`. -/
structure SimRow where
  year : ℕ
  month : ℕ
  inflation : ℝ
  expenses : ℝ
  total_net_spent : ℝ
  bucketCols : List BucketRow

/-- Default used for out-of-range row access (never reached on the ranges
the code iterates over). -/
def defaultBucketRow : BucketRow := ⟨"", 0, 0, 0, 0, 0, 0, 0, 0, 0, 0⟩

/-- Default used for out-of-range row access (never reached on the ranges
the code iterates over). -/
def defaultSimRow : SimRow := ⟨0, 0, 0, 0, 0, []⟩

/-- The per-bucket column group of a row, from a bucket state after the
month's rebalance. -/
noncomputable def bucketRowOf (cfg : SimConfig ℝ)
    (fxNow : String → Option ℝ) (b : BucketState ℝ) : BucketRow :=
  let fx := get_fx_rate b.currency cfg.expenses_currency fxNow
  ⟨b.name, b.price, b.price * fx, b.amount, b.amount * fx, b.amount_sold,
    b.amount_sold * fx, b.amount_bought, b.fees_paid, b.tax_paid,
    b.net_spent⟩

/-- The monthly loop of `run_simulation`, from month `m` with `rem` months
to go: set each state's price from its bucket's series, build the month's FX
dict, run `execute_rebalance`, emit the row, and continue with the updated
states.  (A state's name equals the config bucket's name at the same index,
so indexing the series dict by `b.name` matches
`bucket_price_series[bucket.name]`.) -/
noncomputable def simLoop (cfg : SimConfig ℝ)
    (fxTable bucketTable : List (String × List ℝ))
    (expensesArr inflationArr : List ℝ) :
    List (BucketState ℝ) → ℕ → ℕ → List SimRow
  | _, _, 0 => []
  | states, m, rem + 1 =>
    let states1 := states.map (fun b =>
      { b with price := ((dictLookup bucketTable b.name).getD []).getD m 0 })
    let fxNow : String → Option ℝ := fun c =>
      (dictLookup fxTable c).map (fun l => l.getD m 0)
    let res := execute_rebalance states1 (expensesArr.getD m 0) fxNow cfg m
    (⟨m / 12 + 1, m % 12 + 1, inflationArr.getD m 0, expensesArr.getD m 0,
        (res.1.map (fun b => b.net_spent)).sum,
        res.1.map (bucketRowOf cfg fxNow)⟩ : SimRow)
      :: simLoop cfg fxTable bucketTable expensesArr inflationArr res.1
        (m + 1) rem

/-- Embedding of `run_simulation` in `engine/simulator.py`. -/
noncomputable def run_simulation (cfg : SimConfig ℝ) (rng : Rng) :
    List SimRow :=
  let n := cfg.period_years * 12
  let inflation_rates := simulate_monthly_inflation cfg.inflation n
    rng.inflation
  let expensesArr := compute_monthly_expenses cfg.expense_periods
    cfg.one_time_expenses (fun m => inflation_rates.getD m 0) n rng.expense
  let states0 := cfg.buckets.map
    (fun b => init_bucket_state b b.initial_price)
  simLoop cfg (fxSeriesTable cfg n rng) (bucketSeriesTable cfg n rng)
    expensesArr inflation_rates states0 0 n

/-- Stable insertion into an ascending list of reals. -/
noncomputable def insertReal (x : ℝ) : List ℝ → List ℝ
  | [] => [x]
  | y :: ys => if y ≤ x then y :: insertReal x ys else x :: y :: ys

/-- Ascending sort of a list of reals (the `np.sort` inside
`np.percentile`). -/
noncomputable def sortReal : List ℝ → List ℝ
  | [] => []
  | x :: xs => insertReal x (sortReal xs)

/-- `np.percentile` with the default linear interpolation: position
`q/100 * (len-1)` in the sorted data, interpolating between the two
neighbouring order statistics. -/
noncomputable def npPercentile (xs : List ℝ) (q : ℝ) : ℝ :=
  match sortReal xs with
  | [] => 0
  | s0 :: srest =>
    let s := s0 :: srest
    let pos := q / 100 * ((s.length : ℝ) - 1)
    let lo := (⌊pos⌋).toNat
    let frac := pos - ((⌊pos⌋ : ℤ) : ℝ)
    s.getD lo 0 + frac * (s.getD (lo + 1) (s.getD lo 0) - s.getD lo 0)

/-- One aggregated row of `_percentile_frame` in `engine/montecarlo.py`:
year and month from the template (the first frame), and the chosen
percentile across frames of `total_net_spent`, `expenses` and each
`*_amount_exp` column. -/
structure PercRow where
  year : ℕ
  month : ℕ
  total_net_spent : ℝ
  expenses : ℝ
  bucket_amount_exp : List ℝ

/-- Embedding of `_percentile_frame` in `engine/montecarlo.py`, with the
first frame as template. -/
noncomputable def percentileFrame (frames : List (List SimRow)) (pct : ℝ) :
    List PercRow :=
  let template := frames.getD 0 []
  (List.range template.length).map (fun m =>
    let trow := template.getD m defaultSimRow
    ⟨trow.year, trow.month,
      npPercentile
        (frames.map (fun f => (f.getD m defaultSimRow).total_net_spent)) pct,
      npPercentile
        (frames.map (fun f => (f.getD m defaultSimRow).expenses)) pct,
      (List.range trow.bucketCols.length).map (fun j =>
        npPercentile (frames.map (fun f =>
          ((f.getD m defaultSimRow).bucketCols.getD j
            defaultBucketRow).amount_exp)) pct)⟩)

/-- The success check of the Monte Carlo loop (`montecarlo.py` lines 51-54):
a trial counts as successful when
`np.all(df["expenses"] - df["total_net_spent"] <= 0.01)`. -/
noncomputable def trialSuccess (df : List SimRow) : Bool :=
  df.all (fun r => decide (r.expenses - r.total_net_spent ≤ 1 / 100))

/-- Embedding of the `MonteCarloResult` dataclass in
`engine/montecarlo.py`. -/
structure MonteCarloResult where
  n_simulations : ℕ
  success_count : ℕ
  success_rate : ℝ
  percentile_10 : List PercRow
  percentile_50 : List PercRow
  percentile_90 : List PercRow

/-- The `all_frames` list of `run_monte_carlo`: one `run_simulation` per
trial, each with its own child generator (`children i` models the generator
derived from the i-th child seed). -/
noncomputable def mcFrames (cfg : SimConfig ℝ) (n : ℕ)
    (children : ℕ → Rng) : List (List SimRow) :=
  (List.range n).map (fun i => run_simulation cfg (children i))

/-- Embedding of `run_monte_carlo` in `engine/montecarlo.py`.  With zero
trials, `template = all_frames[0]` on line 64 raises
`IndexError: list index out of range` before the result (and its guarded
`success_rate` division on line 82) is built; that uncaught exception is the
`Except.error` branch.  Otherwise the dataclass is returned with the success
count accumulated by the loop. -/
noncomputable def run_monte_carlo (cfg : SimConfig ℝ) (n_simulations : ℕ)
    (children : ℕ → Rng) : Except String MonteCarloResult :=
  match mcFrames cfg n_simulations children with
  | [] => Except.error "list index out of range"
  | f0 :: rest =>
    Except.ok ⟨n_simulations, (f0 :: rest).countP trialSuccess,
      if 0 < n_simulations
      then (((f0 :: rest).countP trialSuccess : ℕ) : ℝ) / (n_simulations : ℝ)
      else 0,
      percentileFrame (f0 :: rest) 10,
      percentileFrame (f0 :: rest) 50,
      percentileFrame (f0 :: rest) 90⟩

/-- **C2.**  Calling `run_monte_carlo` with `n_simulations = 0` fails fast
with the explicit `list index out of range` error, raised before
`success_rate` is ever computed: it never divides by zero and never returns
a normal result. -/
theorem run_monte_carlo_zero_sims (cfg : SimConfig ℝ) (children : ℕ → Rng) :
    run_monte_carlo cfg 0 children
      = Except.error "list index out of range" := rfl

/-- The spec's wording of per-trial success: every month's row satisfies
`total_net_spent ≥ expenses − 0.01`. -/
def trialSuccessSpec (df : List SimRow) : Prop :=
  ∀ r ∈ df, r.total_net_spent ≥ r.expenses - 1 / 100

noncomputable instance (df : List SimRow) : Decidable (trialSuccessSpec df) :=
  inferInstanceAs
    (Decidable (∀ r ∈ df, r.total_net_spent ≥ r.expenses - 1 / 100))

/-- The code's Boolean success check agrees with the spec's wording. -/
theorem trialSuccess_eq_spec (df : List SimRow) :
    trialSuccess df = decide (trialSuccessSpec df) := by
  have hiff : trialSuccess df = true ↔ trialSuccessSpec df := by
    unfold trialSuccess trialSuccessSpec
    rw [List.all_eq_true]
    constructor
    · intro hall r hr
      have := of_decide_eq_true (hall r hr)
      linarith
    · intro hall r hr
      have := hall r hr
      exact decide_eq_true (by linarith)
  by_cases h : trialSuccessSpec df
  · rw [hiff.mpr h, decide_eq_true h]
  · have hf : trialSuccess df = false := by
      cases hb : trialSuccess df
      · rfl
      · exact absurd (hiff.mp hb) h
    rw [hf, decide_eq_false h]

/-- With at least one trial, `all_frames` is nonempty. -/
theorem mcFrames_ne_nil (cfg : SimConfig ℝ) {n : ℕ} (children : ℕ → Rng)
    (hn : 0 < n) : mcFrames cfg n children ≠ [] := by
  unfold mcFrames
  intro h
  have hlen := congrArg List.length h
  simp only [List.length_map, List.length_range, List.length_nil] at hlen
  omega

/-- With at least one trial, `run_monte_carlo` reduces to the `Except.ok`
branch on all of `all_frames`. -/
theorem run_monte_carlo_of_pos (cfg : SimConfig ℝ) (n : ℕ)
    (children : ℕ → Rng) (hn : 0 < n) :
    run_monte_carlo cfg n children = Except.ok
      ⟨n, (mcFrames cfg n children).countP trialSuccess,
        if 0 < n
        then (((mcFrames cfg n children).countP trialSuccess : ℕ) : ℝ)
          / (n : ℝ)
        else 0,
        percentileFrame (mcFrames cfg n children) 10,
        percentileFrame (mcFrames cfg n children) 50,
        percentileFrame (mcFrames cfg n children) 90⟩ := by
  obtain ⟨f0, rest, hfr⟩ :=
    List.exists_cons_of_ne_nil (mcFrames_ne_nil cfg children hn)
  unfold run_monte_carlo
  rw [hfr]

/-- **C7.**  In `run_monte_carlo` with `n_simulations > 0`, a trial is
counted as successful if and only if every month of that trial has
`total_net_spent ≥ expenses − 0.01`, and the returned `success_rate` equals
`success_count / n_simulations`. -/
theorem run_monte_carlo_success_spec (cfg : SimConfig ℝ) (n : ℕ)
    (children : ℕ → Rng) (hn : 0 < n) :
    ∃ res : MonteCarloResult,
      run_monte_carlo cfg n children = Except.ok res ∧
      res.success_count = (List.range n).countP
        (fun i => decide (trialSuccessSpec (run_simulation cfg (children i))))
      ∧ res.success_rate = ((res.success_count : ℕ) : ℝ) / (n : ℝ) := by
  have hcnt : (mcFrames cfg n children).countP trialSuccess
      = (List.range n).countP
        (fun i => decide (trialSuccessSpec
          (run_simulation cfg (children i)))) := by
    unfold mcFrames
    rw [List.countP_map]
    apply List.countP_congr
    intro i _
    rw [Function.comp_apply, trialSuccess_eq_spec]
  refine ⟨_, run_monte_carlo_of_pos cfg n children hn, ?_, ?_⟩
  · exact hcnt
  · show (if 0 < n then _ else _) = _
    rw [if_pos hn, hcnt]

/-- A zero-horizon configuration: no months, no buckets, no currencies. -/
def witnessConfig : SimConfig ℝ :=
  ⟨0, "USD", 0, 0, ⟨0, 0, 0, .constant⟩, [], [], [], []⟩

/-- A deterministic source of randomness: all streams zero. -/
def witnessRng : Rng := ⟨fun _ => 0, fun _ _ => 0, fun _ _ => 0, fun _ => 0⟩

/-- Witness for `run_monte_carlo_success_spec`: one trial of the
zero-horizon configuration. -/
theorem run_monte_carlo_success_spec_witness :
    0 < 1 ∧ ∃ res : MonteCarloResult,
      run_monte_carlo witnessConfig 1 (fun _ => witnessRng) = Except.ok res ∧
      res.success_count = (List.range 1).countP
        (fun i => decide (trialSuccessSpec
          (run_simulation witnessConfig ((fun _ => witnessRng) i))))
      ∧ res.success_rate = ((res.success_count : ℕ) : ℝ) / ((1 : ℕ) : ℝ) :=
  ⟨Nat.one_pos,
    run_monte_carlo_success_spec witnessConfig 1 (fun _ => witnessRng)
      Nat.one_pos⟩

end InvestPlan
